import Mathlib

/-!
# Coordinated checkpointing: `mpi_checkpoint.c`

A shallow embedding of `src/Actividad11/mpi_checkpoint.c`.

* C `int` values are mathematical integers kept inside `[INT_MIN, INT_MAX]`;
  arithmetic that may leave the range is reduced with `wrapInt` (two's
  complement, 32 bits).
* The file system is a map from file names to file contents (`Store`).
  `fopen(.., "r")` fails exactly when the file is absent. Whether
  `fopen(.., "w")` and each `fprintf` of a call of `save_checkpoint` succeed is
  given by a `SaveOutcome`; a run of `main` takes the outcome of the save of
  each iteration as a parameter. `fopen(.., "w")` that succeeds empties the
  file, and an `fprintf` that fails adds nothing to it.
* The lines printed on standard output for the start and for each iteration,
  the calls of `MPI_Barrier` and of `save_checkpoint`, and `exit` are recorded
  as events of the participant's trace; a call to `MPI_Barrier` is taken to
  return.
-/

set_option autoImplicit false

namespace MpiCheckpoint

/-! ## Constants -/

/-- The constant `#define DATA_SIZE 5`: the size of the data vector. -/
def DATA_SIZE : Nat := 5

/-- The constant `#define CHECKPOINT_INTERVAL 3`. -/
def CHECKPOINT_INTERVAL : Int := 3

/-- The constant `#define FAULT_ITERATION 5`. -/
def FAULT_ITERATION : Int := 5

/-- The local `int max_iterations = 10;` of `main`. -/
def max_iterations : Int := 10

/-- The value of `EXIT_FAILURE` of `<stdlib.h>`. -/
def EXIT_FAILURE : Int := 1

/-- Smallest value of a C `int` (32 bits). -/
def INT_MIN : Int := -2147483648

/-- Largest value of a C `int` (32 bits). -/
def INT_MAX : Int := 2147483647

/-- Smallest value of a C `long` (64 bits). -/
def LONG_MIN : Int := -9223372036854775808

/-- Largest value of a C `long` (64 bits). -/
def LONG_MAX : Int := 9223372036854775807

/-- The value is representable as a C `int`. -/
def InIntRange (x : Int) : Prop := INT_MIN ≤ x ∧ x ≤ INT_MAX

instance decInIntRange (x : Int) : Decidable (InIntRange x) := by
  unfold InIntRange; infer_instance

/-- Reduction of an integer to the C `int` range (two's complement, 32 bits). -/
def wrapInt (x : Int) : Int := (x + 2147483648) % 4294967296 - 2147483648

/-! ## `printf("%d")` and `scanf("%d")` -/

/-- The character of a decimal digit: `'0' + d`. -/
def digitChar (d : Nat) : Char := Char.ofNat (48 + d)

/-- The test `isdigit` of `<ctype.h>`. -/
def isdigit (c : Char) : Bool := decide (48 ≤ c.toNat) && decide (c.toNat ≤ 57)

/-- The test `isspace` of `<ctype.h>` in the C locale: space, `\t`, `\n`, `\v`, `\f`, `\r`. -/
def isspace (c : Char) : Bool :=
  decide (c.toNat = 32) || (decide (9 ≤ c.toNat) && decide (c.toNat ≤ 13))

/-- Decimal digits of a natural number, most significant first, no leading zero
(`fuel` bounds the number of digits after the first). -/
def natDigits : Nat → Nat → List Char
  | 0, n => [digitChar (n % 10)]
  | fuel + 1, n =>
    if n < 10 then [digitChar n] else natDigits fuel (n / 10) ++ [digitChar (n % 10)]

/-- The text `printf("%d", x)` produces. -/
def fmtInt (x : Int) : List Char :=
  if x < 0 then '-' :: natDigits x.natAbs x.natAbs else natDigits x.natAbs x.natAbs

/-- Skipping of leading white space, as every `scanf` conversion but `%c` does. -/
def skipSpace : List Char → List Char
  | [] => []
  | c :: cs => if isspace c then skipSpace cs else c :: cs

/-- The longest run of decimal digits at the head of the input, accumulated on
`acc`, and the input left after it. -/
def scanDigits (acc : Nat) : List Char → Nat × List Char
  | [] => (acc, [])
  | c :: cs => if isdigit c then scanDigits (acc * 10 + (c.toNat - 48)) cs else (acc, c :: cs)

/-- Conversion of the digits read to an `int`, as glibc does it: the value is
computed as a `long` (saturating) and stored through the `int` pointer. For a
value within the `int` range this is the value itself. -/
def storeInt (neg : Bool) (n : Nat) : Int :=
  let v : Int := if neg then -(n : Int) else (n : Int)
  wrapInt (max LONG_MIN (min LONG_MAX v))

/-- The unsigned part of a `%d` conversion: at least one digit is required. -/
def scanUnsigned (neg : Bool) : List Char → Option (Int × List Char)
  | [] => none
  | c :: cs =>
    if isdigit c then
      let r := scanDigits 0 (c :: cs)
      some (storeInt neg r.1, r.2)
    else none

/-- One `fscanf(fp, "%d", &x)` on the input left in the stream: `none` when the
call does not return 1 (end of file or matching failure), otherwise the value
stored and the input left in the stream. -/
def fscanf_d (input : List Char) : Option (Int × List Char) :=
  match skipSpace input with
  | [] => none
  | c :: cs =>
    if c = '-' then scanUnsigned true cs
    else if c = '+' then scanUnsigned false cs
    else scanUnsigned false (c :: cs)

/-! ## The checkpoint store -/

/-- The file system: the content of each file that exists, by file name. -/
abbrev Store := List Char → Option (List Char)

/-- The file system with no file. -/
def emptyStore : Store := fun _ => none

/-- The file system after `fopen(name, "w")`, the writes of `content` and
`fclose`. -/
def writeFile (store : Store) (name content : List Char) : Store :=
  fun f => if f = name then some content else store f

/-- The file name `snprintf(filename, sizeof(filename), "checkpoint_rank_%d.txt", rank)` builds in
`char filename[64]`: at most 63 characters are kept. -/
def checkpointFilename (rank : Int) : List Char :=
  ("checkpoint_rank_".toList ++ fmtInt rank ++ ".txt".toList).take 63

/-- How the library calls of one call of `save_checkpoint` go: whether
`fopen(filename, "w")` returns a stream, and whether the `n`-th `fprintf` on
that stream (counted from 0: the iteration, the five values, the final
newline) returns a value that is not negative. -/
structure SaveOutcome where
  opened : Bool
  printed : Nat → Bool

/-- Every library call of the save succeeds. -/
def SaveOutcome.good : SaveOutcome := { opened := true, printed := fun _ => true }

/-- The call `fopen(filename, "w")` returns `NULL`. -/
def SaveOutcome.noOpen : SaveOutcome := { opened := false, printed := fun _ => true }

/-- The file is opened, `n` calls of `fprintf` succeed and the next fails. -/
def SaveOutcome.stopAt (n : Nat) : SaveOutcome :=
  { opened := true, printed := fun i => decide (i < n) }

/-- The save writes a whole record: `fopen` and the `1 + DATA_SIZE` calls of
`fprintf` whose result the code tests succeed. -/
def Written (o : SaveOutcome) : Prop :=
  o.opened = true ∧ ∀ i, i < 1 + DATA_SIZE → o.printed i = true

instance decWritten (o : SaveOutcome) : Decidable (Written o) := by
  unfold Written; infer_instance

/-- The save writes a whole record or leaves the file as it is: no `fprintf`
fails once `fopen` has emptied the file. -/
def Atomic (o : SaveOutcome) : Prop := o.opened = false ∨ Written o

instance decAtomic (o : SaveOutcome) : Decidable (Atomic o) := by
  unfold Atomic; infer_instance

/-- The outcomes of a run in which every save succeeds, by iteration. -/
def allGood : Int → SaveOutcome := fun _ => SaveOutcome.good

/-- The loop lines 36-42 of `save_checkpoint`,
`for (i = 0; i < DATA_SIZE; i++) if (fprintf(fp, "%d ", data[i]) < 0) return;`,
with `n` iterations left from index `i` on the content `file` written so far:
whether the loop runs to its end, and the content of the file. -/
def saveLoop (o : SaveOutcome) (data : List Int) : Nat → Nat → List Char → Bool × List Char
  | 0, _, file => (true, file)
  | n + 1, i, file =>
    if o.printed (i + 1) then
      saveLoop o data n (i + 1) (file ++ (fmtInt (data.getD i 0) ++ [' ']))
    else (false, file)

/-- The function `void save_checkpoint(int rank, int iteration, int* data)`: the
file system after the call. When `fopen` fails nothing is written (lines
27-30); when an `fprintf` fails the file is closed with what was written
before (lines 31-35 and 37-41); the result of the last `fprintf` (line 43) is
not tested. -/
def save_checkpoint (o : SaveOutcome) (rank iteration : Int) (data : List Int)
    (store : Store) : Store :=
  if o.opened then
    if o.printed 0 then
      let r := saveLoop o data DATA_SIZE 0 (fmtInt iteration ++ ['\n'])
      if r.1 then
        writeFile store (checkpointFilename rank)
          (if o.printed (1 + DATA_SIZE) then r.2 ++ ['\n'] else r.2)
      else writeFile store (checkpointFilename rank) r.2
    else writeFile store (checkpointFilename rank) []
  else store

/-- The text of the values of a record: each of the `n` values from index `i`
followed by a space. -/
def dataText (data : List Int) : Nat → Nat → List Char
  | 0, _ => []
  | n + 1, i => fmtInt (data.getD i 0) ++ ' ' :: dataText data n (i + 1)

/-- The text of a whole record followed by `tail`: the iteration, a newline,
and the `DATA_SIZE` values each followed by a space. -/
def recordText (iteration : Int) (data : List Int) (tail : List Char) : List Char :=
  fmtInt iteration ++ '\n' :: (dataText data DATA_SIZE 0 ++ tail)

/-- The loop `for (i = 0; i < DATA_SIZE; i++) if (fscanf(fp, "%d", &data[i]) != 1) return 0;`
of `load_checkpoint` followed by `return 1`, with `n` iterations left from
index `i`: the value returned and the array. -/
def loadLoop : Nat → Nat → List Char → List Int → Int × List Int
  | 0, _, _, data => (1, data)
  | n + 1, i, input, data =>
    match fscanf_d input with
    | none => (0, data)
    | some (v, rest) => loadLoop n (i + 1) rest (data.set i v)

/-- The function `int load_checkpoint(int rank, int* iteration, int* data)`: the value
returned, and `*iteration` and `data[0..4]` after the call (`iteration` and
`data` are their values before the call). -/
def load_checkpoint (store : Store) (rank iteration : Int) (data : List Int) :
    Int × Int × List Int :=
  match store (checkpointFilename rank) with
  | none => (0, iteration, data)
  | some content =>
    match fscanf_d content with
    | none => (0, iteration, data)
    | some (it, rest) =>
      let r := loadLoop DATA_SIZE 0 rest data
      (r.1, it, r.2)

/-! ## The participant -/

/-- The steps of a participant that are recorded (the diagnostics written on
`stderr` are not). -/
inductive Event where
  /-- The line printed at start-up: recovered or not, iteration and data. -/
  | start (recovered : Bool) (iteration : Int) (data : List Int)
  /-- The line printed after the computation of an iteration. -/
  | iter (iteration : Int) (data : List Int)
  /-- The simulated fault: `exit(EXIT_FAILURE)`. -/
  | fault
  /-- A call of `MPI_Barrier` at a checkpoint boundary. -/
  | barrier (iteration : Int)
  /-- A call of `save_checkpoint`. -/
  | save (iteration : Int) (data : List Int)
  deriving DecidableEq

/-- The state of one participant: the variables of `main`, the file system,
the events so far, and the exit status once the process has ended. -/
structure Proc where
  my_rank : Int
  iteration_count : Int
  data_vector : List Int
  store : Store
  trace : List Event
  status : Option Int

/-- The loop `for (i = 0; i < DATA_SIZE; i++) data_vector[i] = my_rank * 10 + i;`,
with `n` iterations left from index `i`. -/
def initLoop (my_rank : Int) : Nat → Nat → List Int → List Int
  | 0, _, data => data
  | n + 1, i, data => initLoop my_rank n (i + 1) (data.set i (wrapInt (wrapInt (my_rank * 10) + i)))

/-- The loop `for (i = 0; i < DATA_SIZE; i++) data_vector[i] += (my_rank + 1);`,
with `n` iterations left from index `i`. -/
def addLoop (my_rank : Int) : Nat → Nat → List Int → List Int
  | 0, _, data => data
  | n + 1, i, data =>
    addLoop my_rank n (i + 1) (data.set i (wrapInt (data.getD i 0 + wrapInt (my_rank + 1))))

/-- Lines 93-108 of `main`: the attempt to load a checkpoint and the fresh
start when there is none. `data` is the content of the uninitialised array
`data_vector`. -/
def startup (my_rank : Int) (store : Store) (data : List Int) : Proc :=
  let r := load_checkpoint store my_rank 0 data
  if r.1 ≠ 0 then
    { my_rank := my_rank, iteration_count := r.2.1, data_vector := r.2.2, store := store,
      trace := [Event.start true r.2.1 r.2.2], status := none }
  else
    let d := initLoop my_rank DATA_SIZE 0 r.2.2
    { my_rank := my_rank, iteration_count := 0, data_vector := d, store := store,
      trace := [Event.start false 0 d], status := none }

/-- One pass through the body of the main loop (lines 113-140) and the
increment of `iteration_count`, for given values of the constants
`CHECKPOINT_INTERVAL` and `FAULT_ITERATION`; `env k` is the outcome of the save
of iteration `k`. -/
def loopBodyWith (env : Int → SaveOutcome) (interval fault_at : Int) (p : Proc) : Proc :=
  let data := addLoop p.my_rank DATA_SIZE 0 p.data_vector
  let t := p.trace ++ [Event.iter (p.iteration_count + 1) data]
  if p.my_rank = 1 ∧ p.iteration_count + 1 = fault_at then
    { p with data_vector := data, trace := t ++ [Event.fault], status := some EXIT_FAILURE }
  else if (p.iteration_count + 1).tmod interval = 0 then
    { p with
      iteration_count := p.iteration_count + 1
      data_vector := data
      store := save_checkpoint (env (p.iteration_count + 1)) p.my_rank
        (p.iteration_count + 1) data p.store
      trace := t ++ [Event.barrier (p.iteration_count + 1),
                     Event.save (p.iteration_count + 1) data] }
  else
    { p with iteration_count := p.iteration_count + 1, data_vector := data, trace := t }

/-- One pass through the body of the main loop with the constants of the
program. -/
def loopBody (env : Int → SaveOutcome) (p : Proc) : Proc :=
  loopBodyWith env CHECKPOINT_INTERVAL FAULT_ITERATION p

/-- The main loop `for (; iteration_count < max_iterations; iteration_count++)`,
run for at most `fuel` passes. -/
def mainLoop (env : Int → SaveOutcome) : Nat → Proc → Proc
  | 0, p => p
  | fuel + 1, p =>
    if p.status = none ∧ p.iteration_count < max_iterations then
      mainLoop env fuel (loopBody env p)
    else p

/-- The passes of the main loop left to a participant. -/
def passesLeft (p : Proc) : Nat := (max_iterations - p.iteration_count).toNat

/-- Lines 143-145 of `main`: `MPI_Finalize(); return 0;`. -/
def finish (p : Proc) : Proc :=
  match p.status with
  | none => { p with status := some 0 }
  | some _ => p

/-- The function `main` of a participant of rank `my_rank` in a group of
`num_procs`, on the file system `store`; `data` is the content of the
uninitialised array `data_vector` and `env k` the outcome of the save of
iteration `k`. -/
def main (env : Int → SaveOutcome) (num_procs my_rank : Int) (store : Store)
    (data : List Int) : Proc :=
  if num_procs < 3 then
    { my_rank := my_rank, iteration_count := 0, data_vector := data, store := store,
      trace := [], status := some EXIT_FAILURE }
  else
    let p := startup my_rank store data
    finish (mainLoop env (passesLeft p) p)

/-- A run of the group of three participants, one after the other, on the same
file system; `d0`, `d1`, `d2` are the contents of their uninitialised arrays
and `e0`, `e1`, `e2` the outcomes of their saves. Participants read and write
distinct files, so the files left do not depend on how their steps interleave. -/
def runGroup (e0 e1 e2 : Int → SaveOutcome) (store : Store) (d0 d1 d2 : List Int) :
    Proc × Proc × Proc :=
  let p0 := main e0 3 0 store d0
  let p1 := main e1 3 1 p0.store d1
  let p2 := main e2 3 2 p1.store d2
  (p0, p1, p2)

/-- The file system a run of the group leaves. -/
def storeAfter (e0 e1 e2 : Int → SaveOutcome) (store : Store) (d0 d1 d2 : List Int) : Store :=
  (runGroup e0 e1 e2 store d0 d1 d2).2.2.store

/-- The `save` events of a trace. -/
def savesOf (t : List Event) : List (Int × List Int) :=
  t.filterMap fun e => match e with
    | Event.save k d => some (k, d)
    | _ => none

/-- The values `n` successive `%d` conversions read from a content, when all
of them succeed. With `n = 1 + DATA_SIZE` this is the condition of the
specification that an iteration integer followed by the data integers can be
read from a stored record. -/
def scanInts : Nat → List Char → Option (List Int)
  | 0, _ => some []
  | n + 1, input =>
    match fscanf_d input with
    | none => none
    | some (v, rest) => (scanInts n rest).map (fun vs => v :: vs)

/-- The record of a participant cannot be read: the file is absent, or an
iteration followed by `DATA_SIZE` values cannot be read from its content. -/
def Unreadable (store : Store) (rank : Int) : Prop :=
  match store (checkpointFilename rank) with
  | none => True
  | some content => scanInts (1 + DATA_SIZE) content = none

instance decUnreadable (store : Store) (rank : Int) : Decidable (Unreadable store rank) :=
  match h : store (checkpointFilename rank) with
  | none => isTrue (by unfold Unreadable; rw [h]; trivial)
  | some c =>
    decidable_of_iff (scanInts (1 + DATA_SIZE) c = none) (by unfold Unreadable; rw [h])

/-- The state of participant 1 when it has recovered the record of iteration 3
of the reference scenario. -/
def recoveredAtThree : Proc :=
  { my_rank := 1, iteration_count := 3, data_vector := [16, 17, 18, 19, 20],
    store := save_checkpoint SaveOutcome.good 1 3 [16, 17, 18, 19, 20] emptyStore,
    trace := [Event.start true 3 [16, 17, 18, 19, 20]], status := none }

/-- The fresh start: no overflow in `my_rank * 10 + i`. -/
def FreshRange (rank : Int) : Prop := INT_MIN ≤ rank * 10 ∧ rank * 10 + 4 ≤ INT_MAX

instance decFreshRange (rank : Int) : Decidable (FreshRange rank) := by
  unfold FreshRange; infer_instance

/-- The array of five zeros. -/
def zeros : List Int := [0, 0, 0, 0, 0]

/-- What holds of a participant all along a run started on the store `s0` with
the save outcomes `env`: the array has `DATA_SIZE` values, the iteration is an
`int`, a process that has exited with failure status stands in iteration 5,
the last save of the run, when it wrote a whole record, is what the file of the
participant holds, and before any save the store is the one the run started
on. -/
structure RunInv (env : Int → SaveOutcome) (s0 : Store) (p : Proc) : Prop where
  len : p.data_vector.length = DATA_SIZE
  range : InIntRange p.iteration_count
  exited : p.status = some EXIT_FAILURE → p.iteration_count = 4
  last : ∀ k d, (savesOf p.trace).getLast? = some (k, d) →
    (Written (env k) →
      ∃ tail, p.store (checkpointFilename p.my_rank) = some (recordText k d tail)) ∧
    InIntRange k ∧ d.length = DATA_SIZE ∧ (∀ x ∈ d, InIntRange x) ∧
    Event.iter k d ∈ p.trace ∧ k ≤ p.iteration_count
  nosave : savesOf p.trace = [] → p.store = s0

/-- The array participant `r` reaches after `k` iterations from a fresh start:
`data[i] = 10 * r + i + k * (r + 1)`. -/
def vecAt (r k : Int) : List Int :=
  [10 * r + 0 + k * (r + 1), 10 * r + 1 + k * (r + 1), 10 * r + 2 + k * (r + 1),
   10 * r + 3 + k * (r + 1), 10 * r + 4 + k * (r + 1)]

/-- The record of participant `r` is absent, or it reads as an iteration `k`
among 3, 6 and 9 with the array reached after `k` iterations. -/
def ValidRecord (store : Store) (r : Int) : Prop :=
  store (checkpointFilename r) = none ∨
  ∃ k, (k = 3 ∨ k = 6 ∨ k = 9) ∧ load_checkpoint store r 0 zeros = (1, k, vecAt r k)

/-- The ranks for which no computation of a run leaves the `int` range: the
values computed are `10 * r + i + k * (r + 1)` for `i` up to 4 and `k` up to
`max_iterations`, the least of them `20 * r + 10` for a negative rank and the
greatest `20 * r + 14` otherwise. -/
def RankRange (r : Int) : Prop := INT_MIN ≤ 20 * r + 10 ∧ 20 * r + 14 ≤ INT_MAX

instance decRankRange (r : Int) : Decidable (RankRange r) := by
  unfold RankRange; infer_instance

/-- What holds of participant `r` all along a run started on a valid record
with the save outcomes `env`: the record stays valid when no save stops after
the file is emptied, every save made pairs a boundary with the array reached at
that iteration, printed for that iteration, and a running participant holds the
array reached at its iteration. -/
structure StateInv (env : Int → SaveOutcome) (r : Int) (p : Proc) : Prop where
  valid : (∀ k, Atomic (env k)) → ValidRecord p.store r
  saves : ∀ k d, (k, d) ∈ savesOf p.trace →
    (k = 3 ∨ k = 6 ∨ k = 9) ∧ d = vecAt r k ∧ Event.iter k d ∈ p.trace
  running : p.status = none →
    p.my_rank = r ∧ 0 ≤ p.iteration_count ∧ p.data_vector = vecAt r p.iteration_count

/-- Two states of a participant that differ at most in the files of others. -/
def SameButOthers (p q : Proc) : Prop :=
  p.my_rank = q.my_rank ∧ p.iteration_count = q.iteration_count ∧
  p.data_vector = q.data_vector ∧ p.trace = q.trace ∧ p.status = q.status ∧
  p.store (checkpointFilename p.my_rank) = q.store (checkpointFilename p.my_rank)

/-- The outcomes of a run in which the save of iteration 9 stops at its third
`fprintf`, after the iteration and the first value, and every other save
succeeds. -/
def stopsAtNine : Int → SaveOutcome :=
  fun k => if k = 9 then SaveOutcome.stopAt 3 else SaveOutcome.good

/-- Every `save` of the trace comes right after the `barrier` of the same
iteration. -/
def BarrierFirst (t : List Event) : Prop :=
  ∀ pre post k d, t = pre ++ Event.save k d :: post → ∃ pre2, pre = pre2 ++ [Event.barrier k]

/-- Two states of a participant that differ at most in the file system. -/
def SameButStore (p q : Proc) : Prop :=
  p.my_rank = q.my_rank ∧ p.iteration_count = q.iteration_count ∧
  p.data_vector = q.data_vector ∧ p.trace = q.trace ∧ p.status = q.status

/-! ## Decimal text of integers -/

theorem isdigit_digitChar (d : Nat) (h : d < 10) : isdigit (digitChar d) = true := by
  interval_cases d <;> decide

theorem digitChar_val (d : Nat) (h : d < 10) : (digitChar d).toNat - 48 = d := by
  interval_cases d <;> decide

theorem isspace_of_isdigit (c : Char) (h : isdigit c = true) : isspace c = false := by
  simp only [isdigit, Bool.and_eq_true, decide_eq_true_eq] at h
  simp only [isspace, Bool.or_eq_false_iff, Bool.and_eq_false_iff, decide_eq_false_iff_not]
  omega

theorem ne_minus_of_isdigit (c : Char) (h : isdigit c = true) : c ≠ '-' := by
  rintro rfl; revert h; decide

theorem ne_plus_of_isdigit (c : Char) (h : isdigit c = true) : c ≠ '+' := by
  rintro rfl; revert h; decide

theorem natDigits_all_digits (fuel n : Nat) : ∀ c ∈ natDigits fuel n, isdigit c = true := by
  induction fuel generalizing n with
  | zero =>
    intro c hc
    simp only [natDigits, List.mem_singleton] at hc
    subst hc
    exact isdigit_digitChar _ (Nat.mod_lt _ (by decide))
  | succ f ih =>
    intro c hc
    unfold natDigits at hc
    split at hc
    · simp only [List.mem_singleton] at hc
      subst hc
      exact isdigit_digitChar _ (by assumption)
    · rcases List.mem_append.mp hc with h | h
      · exact ih _ c h
      · simp only [List.mem_singleton] at h
        subst h
        exact isdigit_digitChar _ (Nat.mod_lt _ (by decide))

theorem natDigits_ne_nil (fuel n : Nat) : natDigits fuel n ≠ [] := by
  cases fuel with
  | zero => simp [natDigits]
  | succ f =>
    unfold natDigits
    split <;> simp

theorem natDigits_length_le (fuel n k : Nat) (h : n < 10 ^ (k + 1)) :
    (natDigits fuel n).length ≤ k + 1 := by
  induction fuel generalizing n k with
  | zero => simp [natDigits]
  | succ f ih =>
    unfold natDigits
    split
    · simp
    · rename_i h10
      cases k with
      | zero => simp at h; omega
      | succ k =>
        have : n / 10 < 10 ^ (k + 1) := by
          apply Nat.div_lt_of_lt_mul
          rw [pow_succ] at h; omega
        have := ih (n / 10) k this
        simp only [List.length_append, List.length_singleton]
        omega

theorem scanDigits_natDigits (fuel n : Nat) (h : n < 10 ^ (fuel + 1)) (acc : Nat)
    (rest : List Char) :
    scanDigits acc (natDigits fuel n ++ rest)
      = scanDigits (acc * 10 ^ (natDigits fuel n).length + n) rest := by
  induction fuel generalizing n acc rest with
  | zero =>
    have h10 : n < 10 := by simpa using h
    simp only [natDigits, List.singleton_append, scanDigits, List.length_singleton, pow_one]
    rw [if_pos (isdigit_digitChar _ (Nat.mod_lt _ (by decide))),
      digitChar_val _ (Nat.mod_lt _ (by decide)), Nat.mod_eq_of_lt h10]
    rfl
  | succ f ih =>
    unfold natDigits
    split
    · rename_i h10
      simp only [List.singleton_append, scanDigits, List.length_singleton, pow_one]
      rw [if_pos (isdigit_digitChar _ h10), digitChar_val _ h10]
      rfl
    · have hd : n / 10 < 10 ^ (f + 1) := by
        apply Nat.div_lt_of_lt_mul
        rw [pow_succ] at h; omega
      rw [List.append_assoc, ih (n / 10) hd]
      simp only [List.singleton_append, scanDigits, List.length_append, List.length_singleton]
      rw [if_pos (isdigit_digitChar _ (Nat.mod_lt _ (by decide))),
        digitChar_val _ (Nat.mod_lt _ (by decide))]
      congr 1
      rw [pow_succ]
      have := Nat.div_add_mod n 10
      nlinarith [Nat.div_add_mod n 10]

theorem lt_ten_pow_succ (n : Nat) : n < 10 ^ (n + 1) :=
  lt_trans (Nat.lt_pow_self (by decide) n) (Nat.pow_lt_pow_right (by decide) (Nat.lt_succ_self n))

/-- Scanning the digits of `n` followed by something that is not a digit gives `n`. -/
theorem scanDigits_natDigits_stop (n : Nat) (rest : List Char)
    (hrest : ∀ c cs, rest = c :: cs → isdigit c = false) :
    scanDigits 0 (natDigits n n ++ rest) = (n, rest) := by
  rw [scanDigits_natDigits n n (lt_ten_pow_succ n)]
  simp only [zero_mul, zero_add]
  cases rest with
  | nil => rfl
  | cons c cs => simp [scanDigits, hrest c cs rfl]

theorem wrapInt_of_inRange (x : Int) (h : InIntRange x) : wrapInt x = x := by
  unfold InIntRange INT_MIN INT_MAX at h
  unfold wrapInt
  omega

theorem wrapInt_inRange (x : Int) : InIntRange (wrapInt x) := by
  unfold InIntRange INT_MIN INT_MAX wrapInt
  omega

theorem storeInt_inRange (neg : Bool) (n : Nat) : InIntRange (storeInt neg n) :=
  wrapInt_inRange _

theorem scanUnsigned_natDigits (neg : Bool) (n : Nat) (rest : List Char)
    (hrest : ∀ c cs, rest = c :: cs → isdigit c = false) :
    scanUnsigned neg (natDigits n n ++ rest) = some (storeInt neg n, rest) := by
  have hne := natDigits_ne_nil n n
  have hall := natDigits_all_digits n n
  have hs := scanDigits_natDigits_stop n rest hrest
  revert hne hall hs
  generalize natDigits n n = ds
  intro hne hall hs
  cases ds with
  | nil => exact absurd rfl hne
  | cons c cs =>
    have hc : isdigit c = true := hall c (List.mem_cons_self _ _)
    simp only [List.cons_append] at hs ⊢
    simp only [scanUnsigned, hc, if_true, hs]

theorem skipSpace_cons_of_not_space (c : Char) (cs : List Char) (h : isspace c = false) :
    skipSpace (c :: cs) = c :: cs := by
  simp [skipSpace, h]

/-- What `printf("%d")` writes, `fscanf("%d")` reads back: for `x` within the
`int` range, followed by anything that is not a digit. -/
theorem fscanf_d_fmtInt (x : Int) (hx : InIntRange x) (rest : List Char)
    (hrest : ∀ c cs, rest = c :: cs → isdigit c = false) :
    fscanf_d (fmtInt x ++ rest) = some (x, rest) := by
  unfold fmtInt
  split
  · rename_i hneg
    simp only [List.cons_append, fscanf_d]
    rw [skipSpace_cons_of_not_space _ _ (by decide)]
    simp only [if_true]
    rw [scanUnsigned_natDigits true _ rest hrest]
    simp only [storeInt, if_true]
    congr 2
    unfold InIntRange INT_MIN INT_MAX at hx
    unfold wrapInt LONG_MIN LONG_MAX
    omega
  · rename_i hpos
    have hne := natDigits_ne_nil x.natAbs x.natAbs
    have hall := natDigits_all_digits x.natAbs x.natAbs
    have hs := scanUnsigned_natDigits false x.natAbs rest hrest
    revert hne hall hs
    generalize natDigits x.natAbs x.natAbs = ds
    intro hne hall hs
    cases ds with
    | nil => exact absurd rfl hne
    | cons c cs =>
      have hc : isdigit c = true := hall c (List.mem_cons_self _ _)
      simp only [List.cons_append, fscanf_d] at hs ⊢
      rw [skipSpace_cons_of_not_space _ _ (isspace_of_isdigit c hc)]
      simp only [if_neg (ne_minus_of_isdigit c hc), if_neg (ne_plus_of_isdigit c hc)]
      rw [hs]
      simp only [storeInt]
      congr 2
      unfold InIntRange INT_MIN INT_MAX at hx
      unfold wrapInt LONG_MIN LONG_MAX
      simp only [Bool.false_eq_true, if_false]
      omega

theorem fscanf_d_skip (c : Char) (cs : List Char) (h : isspace c = true) :
    fscanf_d (c :: cs) = fscanf_d cs := by
  simp [fscanf_d, skipSpace, h]

theorem fscanf_d_fmtInt_sep (x : Int) (hx : InIntRange x) (sep : Char)
    (hsep : isdigit sep = false) (rest : List Char) :
    fscanf_d (fmtInt x ++ sep :: rest) = some (x, sep :: rest) := by
  apply fscanf_d_fmtInt x hx
  intro c cs h
  injection h with h1 h2
  rw [← h1]; exact hsep

theorem fscanf_d_space_fmtInt_sep (w : Char) (hw : isspace w = true) (x : Int)
    (hx : InIntRange x) (sep : Char) (hsep : isdigit sep = false) (rest : List Char) :
    fscanf_d (w :: (fmtInt x ++ sep :: rest)) = some (x, sep :: rest) := by
  rw [fscanf_d_skip w _ hw, fscanf_d_fmtInt_sep x hx sep hsep]

/-! ## Arrays of `DATA_SIZE` values -/

theorem length_five {α : Type} (l : List α) (h : l.length = DATA_SIZE) :
    ∃ a b c d e, l = [a, b, c, d, e] := by
  unfold DATA_SIZE at h
  match l, h with
  | [a, b, c, d, e], _ => exact ⟨a, b, c, d, e, rfl⟩

/-- The text of a record with an array of five values. -/
theorem recordText_five (iteration a b c d e : Int) (tail : List Char) :
    recordText iteration [a, b, c, d, e] tail
      = fmtInt iteration ++ '\n' :: (fmtInt a ++ ' ' :: (fmtInt b ++ ' ' :: (fmtInt c ++ ' ' ::
          (fmtInt d ++ ' ' :: (fmtInt e ++ ' ' :: tail))))) := by
  simp [recordText, dataText, DATA_SIZE]

/-- Reading back the text of a record, whatever follows it: the value
returned is 1, and the iteration and the five values are those written. -/
theorem load_recordText (store : Store) (rank iteration : Int) (data : List Int)
    (tail : List Char) (it0 : Int) (d0 : List Int)
    (hfile : store (checkpointFilename rank) = some (recordText iteration data tail))
    (hit : InIntRange iteration) (hlen : data.length = DATA_SIZE)
    (hdata : ∀ x ∈ data, InIntRange x) (hd0 : d0.length = DATA_SIZE) :
    load_checkpoint store rank it0 d0 = (1, iteration, data) := by
  obtain ⟨a, b, c, d, e, rfl⟩ := length_five data hlen
  obtain ⟨a0, b0, c0, d0, e0, rfl⟩ := length_five d0 hd0
  have ha := hdata a (by simp)
  have hb := hdata b (by simp)
  have hc := hdata c (by simp)
  have hd := hdata d (by simp)
  have he := hdata e (by simp)
  have hn : isdigit '\n' = false := by decide
  have hs : isdigit ' ' = false := by decide
  have wn : isspace '\n' = true := by decide
  have ws : isspace ' ' = true := by decide
  simp only [load_checkpoint, hfile, recordText_five]
  rw [fscanf_d_fmtInt_sep iteration hit '\n' hn]
  simp only [loadLoop, DATA_SIZE]
  rw [fscanf_d_space_fmtInt_sep '\n' wn a ha ' ' hs]
  simp only []
  rw [fscanf_d_space_fmtInt_sep ' ' ws b hb ' ' hs]
  simp only []
  rw [fscanf_d_space_fmtInt_sep ' ' ws c hc ' ' hs]
  simp only []
  rw [fscanf_d_space_fmtInt_sep ' ' ws d hd ' ' hs]
  simp only []
  rw [fscanf_d_space_fmtInt_sep ' ' ws e he ' ' hs]
  simp

/-- A save whose `fopen` and tested `fprintf` calls succeed leaves the whole
record in the file of the rank, followed by the newline when the last
`fprintf` succeeds too. -/
theorem save_checkpoint_written (o : SaveOutcome) (hw : Written o) (rank iteration : Int)
    (data : List Int) (hlen : data.length = DATA_SIZE) (store : Store) :
    save_checkpoint o rank iteration data store (checkpointFilename rank)
      = some (recordText iteration data (if o.printed 6 then ['\n'] else [])) := by
  obtain ⟨a, b, c, d, e, rfl⟩ := length_five data hlen
  obtain ⟨ho, hp⟩ := hw
  have h0 := hp 0 (by decide)
  have h1 := hp 1 (by decide)
  have h2 := hp 2 (by decide)
  have h3 := hp 3 (by decide)
  have h4 := hp 4 (by decide)
  have h5 := hp 5 (by decide)
  rw [recordText_five]
  simp only [save_checkpoint, ho, h0, if_true, saveLoop, DATA_SIZE, Nat.zero_add, h1,
    Nat.reduceAdd, h2, h3, h4, h5, writeFile]
  split <;> simp

/-- A save whose `fopen` fails leaves the file system as it is. -/
theorem save_checkpoint_noOpen (o : SaveOutcome) (ho : o.opened = false) (rank iteration : Int)
    (data : List Int) (store : Store) : save_checkpoint o rank iteration data store = store := by
  simp [save_checkpoint, ho]

theorem save_checkpoint_other (o : SaveOutcome) (rank iteration : Int) (data : List Int)
    (store : Store) (f : List Char) (h : f ≠ checkpointFilename rank) :
    save_checkpoint o rank iteration data store f = store f := by
  unfold save_checkpoint
  split
  · split
    · simp only []
      split <;> simp [writeFile, h]
    · simp [writeFile, h]
  · rfl

/-- The file of the rank after a save depends on the file system before it
only through that file. -/
theorem save_checkpoint_own (o : SaveOutcome) (rank iteration : Int) (data : List Int)
    (s1 s2 : Store) (h : s1 (checkpointFilename rank) = s2 (checkpointFilename rank)) :
    save_checkpoint o rank iteration data s1 (checkpointFilename rank)
      = save_checkpoint o rank iteration data s2 (checkpointFilename rank) := by
  unfold save_checkpoint
  split
  · split
    · simp only []
      split <;> simp [writeFile]
    · simp [writeFile]
  · exact h

/-- A save whose `fopen` succeeds leaves in the file of the rank a content that
does not depend on the file system before it. -/
theorem save_checkpoint_opened (o : SaveOutcome) (ho : o.opened = true) (rank iteration : Int)
    (data : List Int) (s1 s2 : Store) :
    save_checkpoint o rank iteration data s1 (checkpointFilename rank)
      = save_checkpoint o rank iteration data s2 (checkpointFilename rank) := by
  unfold save_checkpoint
  rw [if_pos ho]
  split
  · simp only []
    split <;> simp [writeFile]
  · simp [writeFile]

/-- Two saves in a row with the same arguments and outcome leave what one
leaves. -/
theorem save_checkpoint_idem (o : SaveOutcome) (rank iteration : Int) (data : List Int)
    (store : Store) :
    save_checkpoint o rank iteration data (save_checkpoint o rank iteration data store)
      = save_checkpoint o rank iteration data store := by
  funext f
  by_cases hf : f = checkpointFilename rank
  · subst hf
    by_cases ho : o.opened = true
    · exact save_checkpoint_opened o ho rank iteration data _ _
    · have ho2 : o.opened = false := by simpa using ho
      rw [save_checkpoint_noOpen o ho2]
  · rw [save_checkpoint_other o rank iteration data _ f hf]

theorem good_written : Written SaveOutcome.good := ⟨rfl, fun _ _ => rfl⟩

theorem allGood_atomic : ∀ k, Atomic (allGood k) := fun _ => Or.inr good_written

/-! ## File names -/

theorem fmtInt_length_le (x : Int) (hx : InIntRange x) : (fmtInt x).length ≤ 11 := by
  have h : x.natAbs < 10 ^ (9 + 1) := by
    unfold InIntRange INT_MIN INT_MAX at hx
    have e : (10 : Nat) ^ (9 + 1) = 10000000000 := by norm_num
    rw [e]
    omega
  have := natDigits_length_le x.natAbs x.natAbs 9 h
  unfold fmtInt
  split
  · simp only [List.length_cons]; omega
  · omega

/-- The 64-byte buffer is large enough: the file name is never truncated. -/
theorem checkpointFilename_eq (rank : Int) (h : InIntRange rank) :
    checkpointFilename rank = "checkpoint_rank_".toList ++ fmtInt rank ++ ".txt".toList := by
  unfold checkpointFilename
  apply List.take_of_length_le
  have := fmtInt_length_le rank h
  simp only [List.length_append]
  have h1 : "checkpoint_rank_".toList.length = 16 := by decide
  have h2 : ".txt".toList.length = 4 := by decide
  omega

theorem checkpointFilename_injective (p q : Int) (hp : InIntRange p) (hq : InIntRange q)
    (h : checkpointFilename p = checkpointFilename q) : p = q := by
  rw [checkpointFilename_eq p hp, checkpointFilename_eq q hq, List.append_assoc,
    List.append_assoc] at h
  have h2 := List.append_cancel_left h
  have e : ".txt".toList = '.' :: "txt".toList := by decide
  rw [e] at h2
  have hdot : isdigit '.' = false := by decide
  have a := fscanf_d_fmtInt_sep p hp '.' hdot "txt".toList
  have b := fscanf_d_fmtInt_sep q hq '.' hdot "txt".toList
  rw [h2, b] at a
  injection a with a
  injection a with a
  exact a.symm

/-! ## Failed loads -/

theorem loadLoop_length (n i : Nat) (input : List Char) (data : List Int) :
    (loadLoop n i input data).2.length = data.length := by
  induction n generalizing i input data with
  | zero => rfl
  | succ n ih =>
    unfold loadLoop
    split
    · rfl
    · rw [ih]; simp

theorem loadLoop_fails (n i : Nat) (input : List Char) (data : List Int)
    (h : scanInts n input = none) : (loadLoop n i input data).1 = 0 := by
  induction n generalizing i input data with
  | zero => simp [scanInts] at h
  | succ n ih =>
    unfold scanInts at h
    unfold loadLoop
    split
    · rfl
    · rename_i v rest hv
      rw [hv] at h
      simp only [Option.map_eq_none'] at h
      exact ih _ _ _ h

theorem load_checkpoint_length (store : Store) (rank it0 : Int) (d0 : List Int) :
    (load_checkpoint store rank it0 d0).2.2.length = d0.length := by
  unfold load_checkpoint
  split
  · rfl
  · split
    · rfl
    · exact loadLoop_length _ _ _ _

theorem load_checkpoint_unreadable (store : Store) (rank it0 : Int) (d0 : List Int)
    (h : Unreadable store rank) : (load_checkpoint store rank it0 d0).1 = 0 := by
  unfold Unreadable at h
  unfold load_checkpoint
  split
  · rfl
  · rename_i content hc
    rw [hc] at h
    simp only [scanInts, Nat.add_comm 1 DATA_SIZE] at h
    split
    · rfl
    · rename_i v rest hv
      rw [hv] at h
      simp only [Option.map_eq_none'] at h
      exact loadLoop_fails _ _ _ _ h

theorem initLoop_five (rank a b c d e : Int) :
    initLoop rank DATA_SIZE 0 [a, b, c, d, e]
      = [wrapInt (wrapInt (rank * 10) + 0), wrapInt (wrapInt (rank * 10) + 1),
         wrapInt (wrapInt (rank * 10) + 2), wrapInt (wrapInt (rank * 10) + 3),
         wrapInt (wrapInt (rank * 10) + 4)] := by
  simp [initLoop, DATA_SIZE]

theorem initLoop_exact (rank : Int) (h : FreshRange rank) (d0 : List Int)
    (hd0 : d0.length = DATA_SIZE) :
    initLoop rank DATA_SIZE 0 d0
      = [rank * 10 + 0, rank * 10 + 1, rank * 10 + 2, rank * 10 + 3, rank * 10 + 4] := by
  obtain ⟨a, b, c, d, e, rfl⟩ := length_five d0 hd0
  rw [initLoop_five]
  unfold FreshRange INT_MIN INT_MAX at h
  have e0 : wrapInt (rank * 10) = rank * 10 :=
    wrapInt_of_inRange _ ⟨by unfold INT_MIN; omega, by unfold INT_MAX; omega⟩
  rw [e0]
  have w : ∀ i : Int, 0 ≤ i → i ≤ 4 → wrapInt (rank * 10 + i) = rank * 10 + i := fun i h0 h4 =>
    wrapInt_of_inRange _ ⟨by unfold INT_MIN; omega, by unfold INT_MAX; omega⟩
  rw [w 0 (by decide) (by decide), w 1 (by decide) (by decide), w 2 (by decide) (by decide),
    w 3 (by decide) (by decide), w 4 (by decide) (by decide)]

/-! ## Successful loads -/

theorem scanInts_succ (n : Nat) (input : List Char) (vs : List Int)
    (h : scanInts (n + 1) input = some vs) :
    ∃ v rest vs1, fscanf_d input = some (v, rest) ∧ scanInts n rest = some vs1 ∧
      vs = v :: vs1 := by
  unfold scanInts at h
  split at h
  · exact absurd h (by simp)
  · rename_i v rest hv
    cases hs : scanInts n rest with
    | none => rw [hs] at h; exact absurd h (by simp)
    | some vs1 =>
      rw [hs] at h
      simp only [Option.map_some', Option.some.injEq] at h
      exact ⟨v, rest, vs1, hv, hs, h.symm⟩

theorem fscanf_d_inRange (input : List Char) (v : Int) (rest : List Char)
    (h : fscanf_d input = some (v, rest)) : InIntRange v := by
  have key : ∀ neg l, scanUnsigned neg l = some (v, rest) → InIntRange v := by
    intro neg l hl
    unfold scanUnsigned at hl
    split at hl
    · exact absurd hl (by simp)
    · split at hl
      · simp only [Option.some.injEq, Prod.mk.injEq] at hl
        rw [← hl.1]; exact storeInt_inRange _ _
      · exact absurd hl (by simp)
  unfold fscanf_d at h
  split at h
  · exact absurd h (by simp)
  · split at h
    · exact key _ _ h
    · split at h
      · exact key _ _ h
      · exact key _ _ h

theorem scanInts_inRange (n : Nat) (input : List Char) (vs : List Int)
    (h : scanInts n input = some vs) : ∀ x ∈ vs, InIntRange x := by
  induction n generalizing input vs with
  | zero =>
    simp only [scanInts, Option.some.injEq] at h
    subst h; simp
  | succ n ih =>
    obtain ⟨v, rest, vs1, hv, hs, rfl⟩ := scanInts_succ n input vs h
    intro x hx
    rcases List.mem_cons.mp hx with rfl | hx
    · exact fscanf_d_inRange _ _ _ hv
    · exact ih rest vs1 hs x hx

theorem scanInts_length (n : Nat) (input : List Char) (vs : List Int)
    (h : scanInts n input = some vs) : vs.length = n := by
  induction n generalizing input vs with
  | zero =>
    simp only [scanInts, Option.some.injEq] at h
    subst h; rfl
  | succ n ih =>
    obtain ⟨v, rest, vs1, _, hs, rfl⟩ := scanInts_succ n input vs h
    simp [ih rest vs1 hs]

theorem loadLoop_readable (input : List Char) (d0 vs : List Int) (hd0 : d0.length = DATA_SIZE)
    (h : scanInts DATA_SIZE input = some vs) : loadLoop DATA_SIZE 0 input d0 = (1, vs) := by
  obtain ⟨a, b, c, d, e, rfl⟩ := length_five d0 hd0
  unfold DATA_SIZE at h ⊢
  obtain ⟨v1, r1, w1, h1, s1, rfl⟩ := scanInts_succ _ _ _ h
  obtain ⟨v2, r2, w2, h2, s2, rfl⟩ := scanInts_succ _ _ _ s1
  obtain ⟨v3, r3, w3, h3, s3, rfl⟩ := scanInts_succ _ _ _ s2
  obtain ⟨v4, r4, w4, h4, s4, rfl⟩ := scanInts_succ _ _ _ s3
  obtain ⟨v5, r5, w5, h5, s5, rfl⟩ := scanInts_succ _ _ _ s4
  simp only [scanInts, Option.some.injEq] at s5
  subst s5
  simp [loadLoop, h1, h2, h3, h4, h5]

/-- A record that can be read: `load_checkpoint` returns 1 with the values
read, whatever the variables held before. -/
theorem load_checkpoint_readable (store : Store) (rank : Int) (content : List Char) (k : Int)
    (vs : List Int) (hfile : store (checkpointFilename rank) = some content)
    (h : scanInts (1 + DATA_SIZE) content = some (k :: vs)) (it0 : Int) (d0 : List Int)
    (hd0 : d0.length = DATA_SIZE) :
    load_checkpoint store rank it0 d0 = (1, k, vs) := by
  rw [Nat.add_comm] at h
  obtain ⟨v, rest, vs1, hv, hs, e⟩ := scanInts_succ _ _ _ h
  injection e with e1 e2
  subst e1 e2
  simp only [load_checkpoint, hfile, hv, loadLoop_readable rest d0 vs hd0 hs]

/-- Every record either cannot be read or holds an iteration and `DATA_SIZE`
values within the `int` range. -/
theorem unreadable_or_readable (store : Store) (rank : Int) :
    Unreadable store rank ∨
    ∃ content k vs, store (checkpointFilename rank) = some content ∧
      scanInts (1 + DATA_SIZE) content = some (k :: vs) ∧ InIntRange k ∧
      vs.length = DATA_SIZE ∧ ∀ x ∈ vs, InIntRange x := by
  unfold Unreadable
  cases hf : store (checkpointFilename rank) with
  | none => left; trivial
  | some content =>
    cases hs : scanInts (1 + DATA_SIZE) content with
    | none => left; exact hs
    | some l =>
      right
      have hs2 := hs
      rw [Nat.add_comm] at hs2
      obtain ⟨v, rest, vs1, hv, hs1, rfl⟩ := scanInts_succ _ _ _ hs2
      have hr := scanInts_inRange _ _ _ hs
      exact ⟨content, v, vs1, rfl, hs, hr v (by simp), scanInts_length _ _ _ hs1,
        fun x hx => hr x (by simp [hx])⟩

theorem initLoop_indep (rank : Int) (d0 d1 : List Int) (hd0 : d0.length = DATA_SIZE)
    (hd1 : d1.length = DATA_SIZE) :
    initLoop rank DATA_SIZE 0 d0 = initLoop rank DATA_SIZE 0 d1 := by
  obtain ⟨a, b, c, d, e, rfl⟩ := length_five d0 hd0
  obtain ⟨a1, b1, c1, d1, e1, rfl⟩ := length_five d1 hd1
  rw [initLoop_five, initLoop_five]

/-- The start state does not depend on what the uninitialised array
`data_vector` holds. -/
theorem startup_indep (rank : Int) (store : Store) (d0 d1 : List Int)
    (hd0 : d0.length = DATA_SIZE) (hd1 : d1.length = DATA_SIZE) :
    startup rank store d0 = startup rank store d1 := by
  rcases unreadable_or_readable store rank with h | ⟨content, k, vs, hf, hs, _, _, _⟩
  · have e0 := load_checkpoint_unreadable store rank 0 d0 h
    have e1 := load_checkpoint_unreadable store rank 0 d1 h
    have l0 : (load_checkpoint store rank 0 d0).2.2.length = DATA_SIZE := by
      rw [load_checkpoint_length]; exact hd0
    have l1 : (load_checkpoint store rank 0 d1).2.2.length = DATA_SIZE := by
      rw [load_checkpoint_length]; exact hd1
    simp only [startup, e0, e1, ne_eq, not_true_eq_false, if_false,
      initLoop_indep rank _ _ l0 l1]
  · simp only [startup, load_checkpoint_readable store rank content k vs hf hs 0 d0 hd0,
      load_checkpoint_readable store rank content k vs hf hs 0 d1 hd1]

theorem main_indep (env : Int → SaveOutcome) (n rank : Int) (store : Store) (d0 d1 : List Int)
    (hd0 : d0.length = DATA_SIZE) (hd1 : d1.length = DATA_SIZE) (h3 : 3 ≤ n) :
    main env n rank store d0 = main env n rank store d1 := by
  unfold main
  rw [if_neg (by omega), if_neg (by omega), startup_indep rank store d0 d1 hd0 hd1]

/-! ## Claims on the store -/

/-- C1, as stated, fails: when `fopen(filename, "w")` returns `NULL` the save
writes nothing, and `load_checkpoint` on the store that had no record returns
0 and leaves the variables as they were; when the third `fprintf` fails the
file holds a part of the record, and `load_checkpoint` returns 0 too. -/
theorem save_then_load_fails :
    load_checkpoint (save_checkpoint SaveOutcome.noOpen 2 7 [1, 2, 3, 4, 5] emptyStore) 2 0 zeros
      = (0, 0, zeros) ∧
    load_checkpoint (save_checkpoint SaveOutcome.noOpen 2 7 [1, 2, 3, 4, 5] emptyStore) 2 0 zeros
      ≠ (1, 7, [1, 2, 3, 4, 5]) ∧
    save_checkpoint (SaveOutcome.stopAt 3) 2 7 [1, 2, 3, 4, 5] emptyStore (checkpointFilename 2)
      = some "7\n1 2 ".toList ∧
    load_checkpoint (save_checkpoint (SaveOutcome.stopAt 3) 2 7 [1, 2, 3, 4, 5] emptyStore)
        2 0 zeros
      = (0, 7, [1, 2, 0, 0, 0]) := by
  decide

/-- C1, amended: for every rank, every iteration and every array of `DATA_SIZE`
values within the `int` range, a call of `save_checkpoint` in which `fopen` and
the tested `fprintf` calls succeed, followed by `load_checkpoint` for the same
rank, returns 1 and yields exactly the saved iteration and the saved values, in
order, whatever the store and the variables held before. -/
theorem save_then_load (o : SaveOutcome) (hw : Written o) (store : Store)
    (rank iteration : Int) (data : List Int) (it0 : Int) (d0 : List Int)
    (hit : InIntRange iteration) (hlen : data.length = DATA_SIZE)
    (hdata : ∀ x ∈ data, InIntRange x) (hd0 : d0.length = DATA_SIZE) :
    load_checkpoint (save_checkpoint o rank iteration data store) rank it0 d0
      = (1, iteration, data) :=
  load_recordText _ rank iteration data _ it0 d0
    (save_checkpoint_written o hw rank iteration data hlen store) hit hlen hdata hd0

/-- Witness of C1: negative values included, at the ends of the `int` range. -/
theorem save_then_load_witness :
    load_checkpoint (save_checkpoint SaveOutcome.good 2 (-7)
        [-2147483648, 0, -1, 2147483647, 42] emptyStore) 2 99 [1, 2, 3, 4, 5]
      = (1, -7, [-2147483648, 0, -1, 2147483647, 42]) :=
  save_then_load SaveOutcome.good (by decide) emptyStore 2 (-7)
    [-2147483648, 0, -1, 2147483647, 42] 99 [1, 2, 3, 4, 5]
    (by decide) (by decide) (by decide) (by decide)

/-- C5: when the record of a rank cannot be read (file absent, or an iteration
followed by five values cannot be read from it), `load_checkpoint` returns 0
and the participant starts as on a first run: iteration 0 and
`data[i] = rank * 10 + i`, whatever `load_checkpoint` stored before failing. -/
theorem unreadable_starts_fresh (store : Store) (rank it0 : Int) (d0 : List Int)
    (hd0 : d0.length = DATA_SIZE) (hr : FreshRange rank) (h : Unreadable store rank) :
    (load_checkpoint store rank it0 d0).1 = 0 ∧
    (startup rank store d0).iteration_count = 0 ∧
    (startup rank store d0).data_vector
      = [rank * 10 + 0, rank * 10 + 1, rank * 10 + 2, rank * 10 + 3, rank * 10 + 4] ∧
    (startup rank store d0).trace
      = [Event.start false 0
          [rank * 10 + 0, rank * 10 + 1, rank * 10 + 2, rank * 10 + 3, rank * 10 + 4]] ∧
    (startup rank store d0).store = store ∧
    (startup rank store d0).status = none := by
  have h0 := load_checkpoint_unreadable store rank 0 d0 h
  have hl : (load_checkpoint store rank 0 d0).2.2.length = DATA_SIZE := by
    rw [load_checkpoint_length]; exact hd0
  refine ⟨load_checkpoint_unreadable store rank it0 d0 h, ?_⟩
  simp only [startup, h0, ne_eq, not_true_eq_false, if_false, initLoop_exact rank hr _ hl]
  simp

/-- Witness of C5: a record cut after two data values; `load_checkpoint` has
stored 7 and the values 1 and 2 when it fails, and none of them survives. -/
theorem unreadable_starts_fresh_witness :
    load_checkpoint (writeFile emptyStore (checkpointFilename 1) "7\n1 2 x".toList) 1 0
        [0, 0, 0, 0, 0] = (0, 7, [1, 2, 0, 0, 0]) ∧
    (load_checkpoint (writeFile emptyStore (checkpointFilename 1) "7\n1 2 x".toList) 1 0
        [0, 0, 0, 0, 0]).1 = 0 ∧
    (startup 1 (writeFile emptyStore (checkpointFilename 1) "7\n1 2 x".toList)
        [0, 0, 0, 0, 0]).iteration_count = 0 ∧
    (startup 1 (writeFile emptyStore (checkpointFilename 1) "7\n1 2 x".toList)
        [0, 0, 0, 0, 0]).data_vector = [10, 11, 12, 13, 14] :=
  ⟨by decide,
   (unreadable_starts_fresh _ 1 0 [0, 0, 0, 0, 0] (by decide) (by decide) (by decide)).1,
   (unreadable_starts_fresh _ 1 0 [0, 0, 0, 0, 0] (by decide) (by decide) (by decide)).2.1,
   (unreadable_starts_fresh _ 1 0 [0, 0, 0, 0, 0] (by decide) (by decide) (by decide)).2.2.1⟩

/-- C8: calling `save_checkpoint` twice in a row with the same arguments, the
library calls going the same way both times, leaves the store (every file of
it) as calling it once does; so does a second call whose `fopen` fails; and the
record a call whose `fopen` succeeds leaves does not depend on the store it is
written to. -/
theorem save_twice (o o2 : SaveOutcome) (store store2 : Store) (rank iteration : Int)
    (data : List Int) :
    save_checkpoint o rank iteration data (save_checkpoint o rank iteration data store)
      = save_checkpoint o rank iteration data store ∧
    (o2.opened = false →
      save_checkpoint o2 rank iteration data (save_checkpoint o rank iteration data store)
        = save_checkpoint o rank iteration data store) ∧
    (o.opened = true →
      save_checkpoint o rank iteration data store (checkpointFilename rank)
        = save_checkpoint o rank iteration data store2 (checkpointFilename rank)) :=
  ⟨save_checkpoint_idem o rank iteration data store,
   fun h => save_checkpoint_noOpen o2 h rank iteration data _,
   fun h => save_checkpoint_opened o h rank iteration data store store2⟩

/-- Witness of C8: the save of participant 1 at iteration 3, every call
succeeding, on the empty store and on a store that holds an older record. -/
theorem save_twice_witness :
    save_checkpoint SaveOutcome.good 1 3 [16, 17, 18, 19, 20]
        (save_checkpoint SaveOutcome.good 1 3 [16, 17, 18, 19, 20] emptyStore)
      = save_checkpoint SaveOutcome.good 1 3 [16, 17, 18, 19, 20] emptyStore ∧
    save_checkpoint SaveOutcome.noOpen 1 3 [16, 17, 18, 19, 20]
        (save_checkpoint SaveOutcome.good 1 3 [16, 17, 18, 19, 20] emptyStore)
      = save_checkpoint SaveOutcome.good 1 3 [16, 17, 18, 19, 20] emptyStore ∧
    save_checkpoint SaveOutcome.good 1 3 [16, 17, 18, 19, 20] emptyStore (checkpointFilename 1)
      = save_checkpoint SaveOutcome.good 1 3 [16, 17, 18, 19, 20]
          (save_checkpoint SaveOutcome.good 1 0 [10, 11, 12, 13, 14] emptyStore)
          (checkpointFilename 1) :=
  have h := save_twice SaveOutcome.good SaveOutcome.noOpen emptyStore
    (save_checkpoint SaveOutcome.good 1 0 [10, 11, 12, 13, 14] emptyStore) 1 3
    [16, 17, 18, 19, 20]
  ⟨h.1, h.2.1 rfl, h.2.2 rfl⟩

/-- C9: for ranks `p ≠ q` within the `int` range, the file names are not
truncated and differ, so `save_checkpoint` for `p`, however its library calls
go, leaves the record of `q` as it is and `load_checkpoint` for `q` returns the
same before and after it. -/
theorem save_other_rank (p q : Int) (hp : InIntRange p) (hq : InIntRange q) (hne : p ≠ q)
    (o : SaveOutcome) (store : Store) (iteration : Int) (data : List Int) (it0 : Int)
    (d0 : List Int) :
    checkpointFilename p = "checkpoint_rank_".toList ++ fmtInt p ++ ".txt".toList ∧
    checkpointFilename p ≠ checkpointFilename q ∧
    save_checkpoint o p iteration data store (checkpointFilename q)
      = store (checkpointFilename q) ∧
    load_checkpoint (save_checkpoint o p iteration data store) q it0 d0
      = load_checkpoint store q it0 d0 := by
  have hf : checkpointFilename q ≠ checkpointFilename p := fun h =>
    hne (checkpointFilename_injective q p hq hp h).symm
  have hs := save_checkpoint_other o p iteration data store _ hf
  refine ⟨checkpointFilename_eq p hp, fun h => hf h.symm, hs, ?_⟩
  unfold load_checkpoint
  rw [hs]

/-- Witness of C9: ranks 1 and -1. -/
theorem save_other_rank_witness :
    checkpointFilename 1 = "checkpoint_rank_".toList ++ fmtInt 1 ++ ".txt".toList ∧
    checkpointFilename 1 ≠ checkpointFilename (-1) ∧
    save_checkpoint SaveOutcome.good 1 3 [16, 17, 18, 19, 20] emptyStore
        (checkpointFilename (-1))
      = emptyStore (checkpointFilename (-1)) ∧
    load_checkpoint (save_checkpoint SaveOutcome.good 1 3 [16, 17, 18, 19, 20] emptyStore) (-1)
        0 [0, 0, 0, 0, 0]
      = load_checkpoint emptyStore (-1) 0 [0, 0, 0, 0, 0] :=
  save_other_rank 1 (-1) (by decide) (by decide) (by decide) SaveOutcome.good emptyStore 3
    [16, 17, 18, 19, 20] 0 [0, 0, 0, 0, 0]

/-! ## The main loop -/

theorem mainLoop_stop (env : Int → SaveOutcome) (fuel : Nat) (p : Proc)
    (h : ¬(p.status = none ∧ p.iteration_count < max_iterations)) : mainLoop env fuel p = p := by
  cases fuel with
  | zero => rfl
  | succ f => simp only [mainLoop, if_neg h]

theorem mainLoop_step (env : Int → SaveOutcome) (fuel : Nat) (p : Proc)
    (h : p.status = none ∧ p.iteration_count < max_iterations) :
    mainLoop env (fuel + 1) p = mainLoop env fuel (loopBody env p) := by
  simp only [mainLoop, if_pos h]

theorem mainLoop_add (env : Int → SaveOutcome) (a b : Nat) (p : Proc) :
    mainLoop env (a + b) p = mainLoop env b (mainLoop env a p) := by
  induction a generalizing p with
  | zero => simp [mainLoop]
  | succ a ih =>
    by_cases h : p.status = none ∧ p.iteration_count < max_iterations
    · rw [Nat.add_right_comm, mainLoop_step env _ _ h, mainLoop_step env _ _ h, ih]
    · rw [mainLoop_stop env _ _ h, mainLoop_stop env _ _ h, mainLoop_stop env _ _ h]

theorem loopBody_my_rank (env : Int → SaveOutcome)
    (p : Proc) : (loopBody env p).my_rank = p.my_rank := by
  unfold loopBody loopBodyWith
  split
  · rfl
  · split <;> rfl

/-- The pass of the loop in which the fault condition holds, whatever the
constants: the process exits with failure status, the store is untouched, and
the only events are the line of the iteration and the exit. -/
theorem loopBodyWith_fault (env : Int → SaveOutcome)
    (interval fault_at : Int) (p : Proc) (h1 : p.my_rank = 1)
    (hf : p.iteration_count + 1 = fault_at) :
    (loopBodyWith env interval fault_at p).status = some EXIT_FAILURE ∧
    (loopBodyWith env interval fault_at p).store = p.store ∧
    (loopBodyWith env interval fault_at p).iteration_count = p.iteration_count ∧
    (loopBodyWith env interval fault_at p).trace
      = p.trace ++ [Event.iter fault_at (loopBodyWith env interval fault_at p).data_vector,
          Event.fault] := by
  unfold loopBodyWith
  rw [if_pos ⟨h1, hf⟩]
  simp [hf]

/-- A pass of the loop in which the fault condition does not hold: the process
goes on with the next iteration. -/
theorem loopBody_no_fault (env : Int → SaveOutcome)
    (p : Proc) (h : ¬(p.my_rank = 1 ∧ p.iteration_count + 1 = 5)) :
    (loopBody env p).status = p.status ∧
    (loopBody env p).iteration_count = p.iteration_count + 1 := by
  unfold loopBody loopBodyWith FAULT_ITERATION
  rw [if_neg h]
  split <;> exact ⟨rfl, rfl⟩

theorem mainLoop_before_fault (env : Int → SaveOutcome) (n : Nat) (p : Proc) (hs : p.status = none)
    (hi : p.iteration_count + n = 4) :
    (mainLoop env n p).iteration_count = 4 ∧ (mainLoop env n p).status = none ∧
    (mainLoop env n p).my_rank = p.my_rank := by
  induction n generalizing p with
  | zero => exact ⟨by simpa using hi, hs, rfl⟩
  | succ n ih =>
    have hc : p.status = none ∧ p.iteration_count < max_iterations := by
      refine ⟨hs, ?_⟩
      unfold max_iterations; omega
    have hn := loopBody_no_fault env p (by omega)
    rw [mainLoop_step env _ _ hc]
    have := ih (loopBody env p) (by rw [hn.1]; exact hs) (by rw [hn.2]; push_cast at hi; omega)
    rw [loopBody_my_rank] at this
    exact this

/-- The main loop ends: after `passesLeft` passes the process has exited or has
reached `max_iterations`, and more fuel changes nothing. -/
theorem mainLoop_ends (env : Int → SaveOutcome) (n : Nat) (p : Proc) (h : passesLeft p ≤ n) :
    ¬((mainLoop env n p).status = none ∧ (mainLoop env n p).iteration_count < max_iterations) := by
  induction n generalizing p with
  | zero =>
    unfold passesLeft max_iterations at h
    simp only [mainLoop]
    unfold max_iterations
    omega
  | succ n ih =>
    by_cases hc : p.status = none ∧ p.iteration_count < max_iterations
    · rw [mainLoop_step env _ _ hc]
      by_cases hf : p.my_rank = 1 ∧ p.iteration_count + 1 = 5
      · have hx := (loopBodyWith_fault env CHECKPOINT_INTERVAL FAULT_ITERATION p hf.1 hf.2).1
        have hstop : ¬((loopBody env p).status = none ∧
            (loopBody env p).iteration_count < max_iterations) := by
          unfold loopBody; rw [hx]; simp
        rw [mainLoop_stop env _ _ hstop]; exact hstop
      · have hn := loopBody_no_fault env p hf
        apply ih
        unfold passesLeft max_iterations at h ⊢
        rw [hn.2]; omega
    · rw [mainLoop_stop env _ _ hc]; exact hc

theorem mainLoop_enough (env : Int → SaveOutcome) (n : Nat) (p : Proc) (h : passesLeft p ≤ n) :
    mainLoop env n p = mainLoop env (passesLeft p) p := by
  obtain ⟨k, rfl⟩ := Nat.exists_eq_add_of_le h
  rw [mainLoop_add, mainLoop_stop env _ _ (mainLoop_ends env _ p (le_refl _))]

/-! ## The simulated fault -/

/-- C10: whenever participant 1 starts below iteration 5, it reaches the start
of iteration 5 (`iteration_count = 4`) still running, and the pass for
iteration 5 ends it with failure status: with any fuel that covers that pass
the loop, and `main` after it, stop in the state that pass leaves, in which the
store is what it was before iteration 5 began and the only events since are the
line of iteration 5 and the exit: no barrier call, no save, no later
iteration. The fault test comes before the boundary test: it wins for any
values of the interval and of the fault iteration. -/
theorem fault_is_abrupt (env : Int → SaveOutcome)
    (p : Proc) (h1 : p.my_rank = 1) (hs : p.status = none)
    (hi : p.iteration_count < FAULT_ITERATION) :
    (mainLoop env (4 - p.iteration_count).toNat p).iteration_count = 4 ∧
    (mainLoop env (4 - p.iteration_count).toNat p).status = none ∧
    (∀ fuel, (5 - p.iteration_count).toNat ≤ fuel →
      mainLoop env fuel p = loopBody env (mainLoop env (4 - p.iteration_count).toNat p)) ∧
    finish (mainLoop env (passesLeft p) p)
      = loopBody env (mainLoop env (4 - p.iteration_count).toNat p) ∧
    (loopBody env (mainLoop env (4 - p.iteration_count).toNat p)).status = some EXIT_FAILURE ∧
    (loopBody env (mainLoop env (4 - p.iteration_count).toNat p)).store
      = (mainLoop env (4 - p.iteration_count).toNat p).store ∧
    (loopBody env (mainLoop env (4 - p.iteration_count).toNat p)).trace
      = (mainLoop env (4 - p.iteration_count).toNat p).trace
        ++ [Event.iter 5 (loopBody env (mainLoop env (4 - p.iteration_count).toNat p)).data_vector,
            Event.fault] ∧
    (∀ (interval fault_at : Int) (r : Proc), r.my_rank = 1 → r.iteration_count + 1 = fault_at →
      (loopBodyWith env interval fault_at r).status = some EXIT_FAILURE ∧
      (loopBodyWith env interval fault_at r).store = r.store ∧
      (loopBodyWith env interval fault_at r).trace
        = r.trace ++ [Event.iter fault_at (loopBodyWith env interval fault_at r).data_vector,
            Event.fault]) := by
  unfold FAULT_ITERATION at hi
  obtain ⟨q4, qs, qr⟩ := mainLoop_before_fault env (4 - p.iteration_count).toNat p hs (by omega)
  rw [h1] at qr
  have hq := loopBodyWith_fault env CHECKPOINT_INTERVAL FAULT_ITERATION _ qr
    (by rw [q4]; rfl)
  have hstop : ¬((loopBody env (mainLoop env (4 - p.iteration_count).toNat p)).status = none ∧
      (loopBody env (mainLoop env (4 - p.iteration_count).toNat p)).iteration_count
        < max_iterations) := by
    unfold loopBody; rw [hq.1]; simp
  have hc : (mainLoop env (4 - p.iteration_count).toNat p).status = none ∧
      (mainLoop env (4 - p.iteration_count).toNat p).iteration_count < max_iterations := by
    refine ⟨qs, ?_⟩
    rw [q4]; decide
  have hfuel : ∀ fuel, (5 - p.iteration_count).toNat ≤ fuel →
      mainLoop env fuel p = loopBody env (mainLoop env (4 - p.iteration_count).toNat p) := by
    intro fuel hfu
    obtain ⟨k, hk⟩ : ∃ k, fuel = (4 - p.iteration_count).toNat + (k + 1) :=
      ⟨fuel - (4 - p.iteration_count).toNat - 1, by omega⟩
    rw [hk, mainLoop_add, mainLoop_step env _ _ hc, mainLoop_stop env _ _ hstop]
  refine ⟨q4, qs, hfuel, ?_, hq.1, hq.2.1, hq.2.2.2, ?_⟩
  · rw [hfuel (passesLeft p) (by unfold passesLeft max_iterations; omega)]
    unfold finish
    have := hq.1
    unfold loopBody
    rw [this]
  · intro interval fault_at r hr hf
    have := loopBodyWith_fault env interval fault_at r hr hf
    exact ⟨this.1, this.2.1, this.2.2.2⟩

/-- Witness of C10: participant 1 as it is recovered at iteration 3. -/
theorem fault_is_abrupt_witness :
    (mainLoop allGood (4 - recoveredAtThree.iteration_count).toNat
        recoveredAtThree).iteration_count = 4 ∧
    finish (mainLoop allGood (passesLeft recoveredAtThree) recoveredAtThree)
      = loopBody allGood
          (mainLoop allGood (4 - recoveredAtThree.iteration_count).toNat recoveredAtThree) ∧
    (loopBody allGood
        (mainLoop allGood (4 - recoveredAtThree.iteration_count).toNat recoveredAtThree)).status
      = some EXIT_FAILURE ∧
    (loopBody allGood
        (mainLoop allGood (4 - recoveredAtThree.iteration_count).toNat recoveredAtThree)).store
      = (mainLoop allGood (4 - recoveredAtThree.iteration_count).toNat recoveredAtThree).store :=
  have h := fault_is_abrupt allGood recoveredAtThree rfl rfl (by decide)
  ⟨h.1, h.2.2.2.1, h.2.2.2.2.1, h.2.2.2.2.2.1⟩

/-! ## Recovery after a fault -/

theorem addLoop_five (rank a b c d e : Int) :
    addLoop rank DATA_SIZE 0 [a, b, c, d, e]
      = [wrapInt (a + wrapInt (rank + 1)), wrapInt (b + wrapInt (rank + 1)),
         wrapInt (c + wrapInt (rank + 1)), wrapInt (d + wrapInt (rank + 1)),
         wrapInt (e + wrapInt (rank + 1))] := by
  simp [addLoop, DATA_SIZE]

theorem addLoop_length (rank : Int) (data : List Int) (h : data.length = DATA_SIZE) :
    (addLoop rank DATA_SIZE 0 data).length = DATA_SIZE := by
  obtain ⟨a, b, c, d, e, rfl⟩ := length_five data h
  rw [addLoop_five]; rfl

theorem addLoop_inRange (rank : Int) (data : List Int) (h : data.length = DATA_SIZE) :
    ∀ x ∈ addLoop rank DATA_SIZE 0 data, InIntRange x := by
  obtain ⟨a, b, c, d, e, rfl⟩ := length_five data h
  rw [addLoop_five]
  intro x hx
  simp only [List.mem_cons, List.mem_singleton, List.not_mem_nil, or_false] at hx
  rcases hx with rfl | rfl | rfl | rfl | rfl <;> exact wrapInt_inRange _

theorem savesOf_append (t u : List Event) : savesOf (t ++ u) = savesOf t ++ savesOf u := by
  simp [savesOf]

theorem savesOf_iter (k : Int) (d : List Int) : savesOf [Event.iter k d] = [] := rfl

theorem savesOf_fault : savesOf [Event.fault] = [] := rfl

theorem savesOf_barrier_save (k j : Int) (d : List Int) :
    savesOf [Event.barrier k, Event.save j d] = [(j, d)] := rfl

theorem startup_length (rank : Int) (store : Store) (d0 : List Int)
    (hd0 : d0.length = DATA_SIZE) : (startup rank store d0).data_vector.length = DATA_SIZE := by
  rcases unreadable_or_readable store rank with h | ⟨content, k, vs, hf, hs, _, hl, _⟩
  · have e0 := load_checkpoint_unreadable store rank 0 d0 h
    have l0 : (load_checkpoint store rank 0 d0).2.2.length = DATA_SIZE := by
      rw [load_checkpoint_length]; exact hd0
    obtain ⟨a, b, c, d, e, h5⟩ := length_five _ l0
    simp only [startup, e0, ne_eq, not_true_eq_false, if_false, h5, initLoop_five]
    rfl
  · simp only [startup, load_checkpoint_readable store rank content k vs hf hs 0 d0 hd0]
    simpa using hl

theorem startup_range (rank : Int) (store : Store) (d0 : List Int)
    (hd0 : d0.length = DATA_SIZE) : InIntRange (startup rank store d0).iteration_count := by
  rcases unreadable_or_readable store rank with h | ⟨content, k, vs, hf, hs, hk, _, _⟩
  · have e0 := load_checkpoint_unreadable store rank 0 d0 h
    simp only [startup, e0, ne_eq, not_true_eq_false, if_false]
    decide
  · simp only [startup, load_checkpoint_readable store rank content k vs hf hs 0 d0 hd0]
    simpa using hk

theorem startup_fields (rank : Int) (store : Store) (d0 : List Int) :
    (startup rank store d0).my_rank = rank ∧ (startup rank store d0).store = store ∧
    (startup rank store d0).status = none ∧ savesOf (startup rank store d0).trace = [] := by
  unfold startup
  simp only []
  split <;> exact ⟨rfl, rfl, rfl, rfl⟩

theorem startup_recovered (rank : Int) (store : Store) (d0 : List Int) (k : Int)
    (vs : List Int) (h : load_checkpoint store rank 0 d0 = (1, k, vs)) :
    startup rank store d0
      = { my_rank := rank, iteration_count := k, data_vector := vs, store := store,
          trace := [Event.start true k vs], status := none } := by
  simp [startup, h]

theorem startup_inv (env : Int → SaveOutcome) (rank : Int) (store : Store) (d0 : List Int)
    (hd0 : d0.length = DATA_SIZE) : RunInv env store (startup rank store d0) := by
  obtain ⟨_, hst, hs, ht⟩ := startup_fields rank store d0
  refine ⟨startup_length rank store d0 hd0, startup_range rank store d0 hd0, ?_, ?_, ?_⟩
  · intro h; rw [hs] at h; exact absurd h (by simp)
  · intro k d h; rw [ht] at h; exact absurd h (by simp)
  · intro _; exact hst

theorem loopBody_inv (env : Int → SaveOutcome)
    (s0 : Store) (p : Proc) (hp : RunInv env s0 p) (hs : p.status = none)
    (hi : p.iteration_count < max_iterations) : RunInv env s0 (loopBody env p) := by
  obtain ⟨rank, it, data, store, trace, status⟩ := p
  obtain ⟨len, range, exited, last, nosave⟩ := hp
  simp only at len range exited last nosave hs hi
  have hlen := addLoop_length rank data len
  have hin := addLoop_inRange rank data len
  have hr1 : InIntRange (it + 1) := by
    unfold InIntRange INT_MIN INT_MAX max_iterations at *
    omega
  unfold loopBody loopBodyWith
  simp only []
  split
  · rename_i hf
    refine ⟨hlen, range, ?_, ?_, ?_⟩
    · intro _
      have := hf.2
      unfold FAULT_ITERATION at this
      simp only; omega
    · intro k d h
      simp only [savesOf_append, savesOf_iter, savesOf_fault, List.append_nil] at h
      obtain ⟨a, b, c, d1, e1, f⟩ := last k d h
      exact ⟨a, b, c, d1, by simp [e1], f⟩
    · intro h
      simp only [savesOf_append, savesOf_iter, savesOf_fault, List.append_nil] at h
      exact nosave h
  · split
    · refine ⟨hlen, hr1, ?_, ?_, ?_⟩
      · intro h; simp only at h; rw [hs] at h; exact absurd h (by simp)
      · intro k d h
        simp only [savesOf_append, savesOf_iter, savesOf_barrier_save, List.append_nil] at h
        rw [List.getLast?_concat] at h
        simp only [Option.some.injEq, Prod.mk.injEq] at h
        obtain ⟨rfl, rfl⟩ := h
        exact ⟨fun hw => ⟨_, save_checkpoint_written (env (it + 1)) hw rank (it + 1) _ hlen
          store⟩, hr1, hlen, hin, by simp, le_refl _⟩
      · intro h
        simp only [savesOf_append, savesOf_iter, savesOf_barrier_save, List.append_nil] at h
        exact absurd h (by simp)
    · refine ⟨hlen, hr1, ?_, ?_, ?_⟩
      · intro h; simp only at h; rw [hs] at h; exact absurd h (by simp)
      · intro k d h
        simp only [savesOf_append, savesOf_iter, List.append_nil] at h
        obtain ⟨a, b, c, d1, e1, f⟩ := last k d h
        exact ⟨a, b, c, d1, by simp [e1], by simp only; omega⟩
      · intro h
        simp only [savesOf_append, savesOf_iter, List.append_nil] at h
        exact nosave h

theorem mainLoop_inv (env : Int → SaveOutcome)
    (s0 : Store) (fuel : Nat) (p : Proc) (hp : RunInv env s0 p) :
    RunInv env s0 (mainLoop env fuel p) := by
  induction fuel generalizing p with
  | zero => exact hp
  | succ n ih =>
    by_cases hc : p.status = none ∧ p.iteration_count < max_iterations
    · rw [mainLoop_step env _ _ hc]
      exact ih _ (loopBody_inv env s0 p hp hc.1 hc.2)
    · rw [mainLoop_stop env _ _ hc]; exact hp

theorem mainLoop_my_rank (env : Int → SaveOutcome)
    (fuel : Nat) (p : Proc) : (mainLoop env fuel p).my_rank = p.my_rank := by
  induction fuel generalizing p with
  | zero => rfl
  | succ n ih =>
    by_cases hc : p.status = none ∧ p.iteration_count < max_iterations
    · rw [mainLoop_step env _ _ hc, ih, loopBody_my_rank]
    · rw [mainLoop_stop env _ _ hc]

theorem finish_fields (p : Proc) :
    (finish p).store = p.store ∧ (finish p).trace = p.trace ∧
    (finish p).my_rank = p.my_rank ∧ (finish p).iteration_count = p.iteration_count ∧
    ((finish p).status = some EXIT_FAILURE → p.status = some EXIT_FAILURE) := by
  unfold finish
  split
  · refine ⟨rfl, rfl, rfl, rfl, ?_⟩
    intro h
    simp only [Option.some.injEq] at h
    exact absurd h (by decide)
  · exact ⟨rfl, rfl, rfl, rfl, fun h => h⟩

/-- The file a run leaves holds its last save, when that save wrote a whole
record: `load_checkpoint` reads back the iteration and the array of that save,
which is the array printed for that iteration. -/
theorem main_last_save (env : Int → SaveOutcome) (n rank : Int) (store : Store)
    (d0 : List Int) (hd0 : d0.length = DATA_SIZE) (h3 : 3 ≤ n) (C : Int) (dC : List Int)
    (hlast : (savesOf (main env n rank store d0).trace).getLast? = some (C, dC))
    (hw : Written (env C)) (it1 : Int) (d1 : List Int) (hd1 : d1.length = DATA_SIZE) :
    load_checkpoint (main env n rank store d0).store rank it1 d1 = (1, C, dC) ∧
    Event.iter C dC ∈ (main env n rank store d0).trace ∧
    C ≤ (main env n rank store d0).iteration_count := by
  have hm : main env n rank store d0
      = finish (mainLoop env (passesLeft (startup rank store d0)) (startup rank store d0)) := by
    unfold main
    rw [if_neg (by omega)]
  have hinv := mainLoop_inv env store (passesLeft (startup rank store d0)) _
    (startup_inv env rank store d0 hd0)
  have hrank := mainLoop_my_rank env (passesLeft (startup rank store d0))
    (startup rank store d0)
  rw [(startup_fields rank store d0).1] at hrank
  obtain ⟨fs, ft, _, fi, _⟩ :=
    finish_fields (mainLoop env (passesLeft (startup rank store d0)) (startup rank store d0))
  rw [hm] at hlast ⊢
  rw [fs, ft, fi]
  rw [ft] at hlast
  obtain ⟨hfile, hC, hl, hr, hmem, hle⟩ := hinv.last C dC hlast
  obtain ⟨tail, hfile⟩ := hfile hw
  rw [hrank] at hfile
  exact ⟨load_recordText _ rank C dC tail it1 d1 hfile hC hl hr hd1, hmem, hle⟩

/-- A run that ended by the fault stands in iteration 5, and a run that made no
save leaves the store it started on. -/
theorem main_faulted (env : Int → SaveOutcome) (n rank : Int) (store : Store)
    (d0 : List Int) (hd0 : d0.length = DATA_SIZE) (h3 : 3 ≤ n) :
    ((main env n rank store d0).status = some EXIT_FAILURE →
      (main env n rank store d0).iteration_count = 4) ∧
    (savesOf (main env n rank store d0).trace = [] →
      (main env n rank store d0).store = store) := by
  have hm : main env n rank store d0
      = finish (mainLoop env (passesLeft (startup rank store d0)) (startup rank store d0)) := by
    unfold main
    rw [if_neg (by omega)]
  have hinv := mainLoop_inv env store (passesLeft (startup rank store d0)) _
    (startup_inv env rank store d0 hd0)
  obtain ⟨fs, ft, _, fi, fx⟩ :=
    finish_fields (mainLoop env (passesLeft (startup rank store d0)) (startup rank store d0))
  rw [hm, fs, ft, fi]
  exact ⟨fun h => hinv.exited (fx h), hinv.nosave⟩

/-- C3: after a run that ended by the fault, the restarted participant starts
exactly at the last save of that run, when that save wrote its record: its
iteration counter is the boundary `C` of that save and its array is the array
it had at iteration `C` (the one printed for iteration `C`), with `C` below the
fault iteration; and when the run made no save, the restart finds the store the
run started on. -/
theorem restart_resumes_at_last_save (env : Int → SaveOutcome) (n rank : Int) (store : Store)
    (d0 d1 : List Int) (hd0 : d0.length = DATA_SIZE) (hd1 : d1.length = DATA_SIZE)
    (h3 : 3 ≤ n) (hfault : (main env n rank store d0).status = some EXIT_FAILURE) :
    (∀ C dC, (savesOf (main env n rank store d0).trace).getLast? = some (C, dC) →
      Written (env C) →
      (startup rank (main env n rank store d0).store d1).iteration_count = C ∧
      (startup rank (main env n rank store d0).store d1).data_vector = dC ∧
      (startup rank (main env n rank store d0).store d1).trace = [Event.start true C dC] ∧
      Event.iter C dC ∈ (main env n rank store d0).trace ∧
      C < FAULT_ITERATION) ∧
    (savesOf (main env n rank store d0).trace = [] →
      (main env n rank store d0).store = store) := by
  have hf := main_faulted env n rank store d0 hd0 h3
  refine ⟨?_, hf.2⟩
  intro C dC hlast hw
  obtain ⟨hload, hmem, hle⟩ := main_last_save env n rank store d0 hd0 h3 C dC hlast hw 0 d1 hd1
  have h4 := hf.1 hfault
  rw [startup_recovered rank _ d1 C dC hload]
  refine ⟨rfl, rfl, rfl, hmem, ?_⟩
  unfold FAULT_ITERATION; omega

/-- Witness of C3, the reference case: participant 1 faults in iteration 5 of
a run from the empty store and resumes at iteration 3 with the array
`[16, 17, 18, 19, 20]`. -/
theorem restart_resumes_at_last_save_witness :
    (main allGood 3 1 emptyStore zeros).status = some EXIT_FAILURE ∧
    (savesOf (main allGood 3 1 emptyStore zeros).trace).getLast?
      = some (3, [16, 17, 18, 19, 20]) ∧
    (startup 1 (main allGood 3 1 emptyStore zeros).store zeros).iteration_count = 3 ∧
    (startup 1 (main allGood 3 1 emptyStore zeros).store zeros).data_vector
      = [16, 17, 18, 19, 20] :=
  have h := (restart_resumes_at_last_save allGood 3 1 emptyStore zeros zeros rfl rfl
    (by decide) (by decide)).1 3 [16, 17, 18, 19, 20] (by decide) (by decide)
  ⟨by decide, by decide, h.1, h.2.1⟩

/-! ## Records are states that occurred -/

theorem vecAt_inRange (r k : Int) (hr : RankRange r) (h0 : 0 ≤ k) (h10 : k ≤ 10) :
    ∀ x ∈ vecAt r k, InIntRange x := by
  unfold RankRange INT_MIN INT_MAX at hr
  intro x hx
  simp only [vecAt, List.mem_cons, List.mem_singleton, List.not_mem_nil, or_false] at hx
  unfold InIntRange INT_MIN INT_MAX
  interval_cases k <;> rcases hx with rfl | rfl | rfl | rfl | rfl <;> constructor <;> omega

theorem addLoop_vecAt (r k : Int) (hr : RankRange r) (h0 : 0 ≤ k) (h10 : k < 10) :
    addLoop r DATA_SIZE 0 (vecAt r k) = vecAt r (k + 1) := by
  unfold RankRange INT_MIN INT_MAX at hr
  have w1 : wrapInt (r + 1) = r + 1 :=
    wrapInt_of_inRange _ ⟨by unfold INT_MIN; omega, by unfold INT_MAX; omega⟩
  have w : ∀ i : Int, 0 ≤ i → i ≤ 4 →
      wrapInt (10 * r + i + k * (r + 1) + (r + 1)) = 10 * r + i + (k + 1) * (r + 1) := by
    intro i hi0 hi4
    have e : 10 * r + i + k * (r + 1) + (r + 1) = 10 * r + i + (k + 1) * (r + 1) := by ring
    rw [e]
    apply wrapInt_of_inRange
    unfold InIntRange INT_MIN INT_MAX
    interval_cases k <;> constructor <;> omega
  unfold vecAt
  rw [addLoop_five, w1, w 0 (by decide) (by decide), w 1 (by decide) (by decide),
    w 2 (by decide) (by decide), w 3 (by decide) (by decide), w 4 (by decide) (by decide)]

theorem initLoop_vecAt (r : Int) (hr : RankRange r) (d0 : List Int)
    (hd0 : d0.length = DATA_SIZE) : initLoop r DATA_SIZE 0 d0 = vecAt r 0 := by
  have hf : FreshRange r := by
    unfold RankRange INT_MIN INT_MAX at hr
    unfold FreshRange INT_MIN INT_MAX
    omega
  rw [initLoop_exact r hf d0 hd0]
  simp only [vecAt, List.cons.injEq, and_true]
  refine ⟨?_, ?_, ?_, ?_, ?_⟩ <;> ring

theorem boundary_cases (k : Int) (h1 : 1 ≤ k) (h10 : k ≤ 10)
    (h : k.tmod CHECKPOINT_INTERVAL = 0) : k = 3 ∨ k = 6 ∨ k = 9 := by
  unfold CHECKPOINT_INTERVAL at h
  interval_cases k <;> first | omega | exact absurd h (by decide)

theorem startup_stateInv (env : Int → SaveOutcome) (r : Int) (store : Store) (d0 : List Int)
    (hd0 : d0.length = DATA_SIZE) (hr : RankRange r) (hv : ValidRecord store r) :
    StateInv env r (startup r store d0) := by
  rw [startup_indep r store d0 zeros hd0 rfl]
  rcases hv with habs | ⟨k, hk, hload⟩
  · have hu : Unreadable store r := by unfold Unreadable; rw [habs]; trivial
    have e0 := load_checkpoint_unreadable store r 0 zeros hu
    have l0 : (load_checkpoint store r 0 zeros).2.2.length = DATA_SIZE := by
      rw [load_checkpoint_length]; rfl
    have hst : startup r store zeros
        = { my_rank := r, iteration_count := 0, data_vector := vecAt r 0, store := store,
            trace := [Event.start false 0 (vecAt r 0)], status := none } := by
      simp only [startup, e0, ne_eq, not_true_eq_false, if_false, initLoop_vecAt r hr _ l0]
    rw [hst]
    refine ⟨fun _ => Or.inl habs, ?_, ?_⟩
    · intro k d h
      exact absurd h (by simp [savesOf])
    · intro _
      exact ⟨rfl, le_refl _, rfl⟩
  · rw [startup_recovered r store zeros k (vecAt r k) hload]
    refine ⟨fun _ => Or.inr ⟨k, hk, hload⟩, ?_, ?_⟩
    · intro k d h
      exact absurd h (by simp [savesOf])
    · intro _
      refine ⟨rfl, ?_, rfl⟩
      simp only
      omega

theorem loopBody_stateInv (env : Int → SaveOutcome) (r : Int) (hr : RankRange r) (p : Proc)
    (hp : StateInv env r p) (hs : p.status = none) (hi : p.iteration_count < max_iterations) :
    StateInv env r (loopBody env p) := by
  obtain ⟨rank, it, data, store, trace, status⟩ := p
  obtain ⟨valid, saves, running⟩ := hp
  simp only at valid saves running hs hi
  obtain ⟨rfl, h0, rfl⟩ := running hs
  unfold max_iterations at hi
  have hdata := addLoop_vecAt rank it hr h0 hi
  unfold loopBody loopBodyWith
  simp only [hdata]
  split
  · refine ⟨valid, ?_, ?_⟩
    · intro k d h
      simp only [savesOf_append, savesOf_iter, savesOf_fault, List.append_nil] at h
      obtain ⟨a, b, c⟩ := saves k d h
      exact ⟨a, b, by simp [c]⟩
    · intro h
      exact absurd h (by simp)
  · split
    · rename_i hb
      have hk := boundary_cases (it + 1) (by omega) (by omega) hb
      have hvalid : (∀ k, Atomic (env k)) →
          ValidRecord (save_checkpoint (env (it + 1)) rank (it + 1) (vecAt rank (it + 1))
            store) rank := by
        intro hat
        rcases hat (it + 1) with ho | hw
        · rw [save_checkpoint_noOpen _ ho]
          exact valid hat
        · exact Or.inr ⟨it + 1, hk, load_recordText _ rank (it + 1) (vecAt rank (it + 1)) _ 0
            zeros (save_checkpoint_written _ hw rank (it + 1) (vecAt rank (it + 1)) rfl store)
            ⟨by unfold INT_MIN; omega, by unfold INT_MAX; omega⟩ rfl
            (vecAt_inRange rank (it + 1) hr (by omega) (by omega)) rfl⟩
      refine ⟨hvalid, ?_, ?_⟩
      · intro k d h
        simp only [savesOf_append, savesOf_iter, savesOf_barrier_save, List.append_nil,
          List.mem_append, List.mem_singleton, Prod.mk.injEq] at h
        rcases h with h | ⟨rfl, rfl⟩
        · obtain ⟨a, b, c⟩ := saves k d h
          exact ⟨a, b, by simp [c]⟩
        · exact ⟨hk, rfl, by simp⟩
      · intro _
        exact ⟨rfl, by simp only; omega, rfl⟩
    · refine ⟨valid, ?_, ?_⟩
      · intro k d h
        simp only [savesOf_append, savesOf_iter, List.append_nil] at h
        obtain ⟨a, b, c⟩ := saves k d h
        exact ⟨a, b, by simp [c]⟩
      · intro _
        exact ⟨rfl, by simp only; omega, rfl⟩

theorem mainLoop_stateInv (env : Int → SaveOutcome) (r : Int) (hr : RankRange r) (fuel : Nat)
    (p : Proc) (hp : StateInv env r p) : StateInv env r (mainLoop env fuel p) := by
  induction fuel generalizing p with
  | zero => exact hp
  | succ n ih =>
    by_cases hc : p.status = none ∧ p.iteration_count < max_iterations
    · rw [mainLoop_step env _ _ hc]
      exact ih _ (loopBody_stateInv env r hr p hp hc.1 hc.2)
    · rw [mainLoop_stop env _ _ hc]; exact hp

/-- C7, as stated, fails: participant 0 starts with no record, and the save of
iteration 9 stops at its third `fprintf` after `fopen` has emptied the file;
the file then holds `"9\n9 10 "`, a record that is neither absent nor of the
form claimed (`load_checkpoint` returns 0 on it). -/
theorem records_are_states_fails :
    ValidRecord emptyStore 0 ∧
    (main stopsAtNine 3 0 emptyStore zeros).store (checkpointFilename 0)
      = some "9\n9 10 ".toList ∧
    ¬ValidRecord (main stopsAtNine 3 0 emptyStore zeros).store 0 := by
  refine ⟨Or.inl rfl, by decide, ?_⟩
  rintro (h | ⟨k, _, h⟩)
  · have e : (main stopsAtNine 3 0 emptyStore zeros).store (checkpointFilename 0)
        = some "9\n9 10 ".toList := by decide
    rw [e] at h
    exact absurd h (by simp)
  · have e : (load_checkpoint (main stopsAtNine 3 0 emptyStore zeros).store 0 0 zeros).1 = 0 := by
      decide
    rw [h] at e
    exact absurd e (by simp)

/-- C7, amended: when the record of participant `r` is absent or holds an
iteration `k` among 3, 6, 9 with `data[i] = 10 * r + i + k * (r + 1)` before a
run in which every save writes its whole record or fails at `fopen` (no
`fprintf` fails once the file is emptied), it is absent or of that form after
any number of passes of the main loop and at the end of the run, however the
run ends; and, whatever the outcome of the saves, every save of the run pairs
its iteration `k` with exactly the array reached after `k` iterations, the one
printed for iteration `k`. -/
theorem records_are_states (env : Int → SaveOutcome) (n r : Int) (store : Store)
    (d0 : List Int) (hd0 : d0.length = DATA_SIZE) (hr : RankRange r)
    (hv : ValidRecord store r) :
    ((∀ k, Atomic (env k)) →
      (∀ fuel, ValidRecord (mainLoop env fuel (startup r store d0)).store r) ∧
      ValidRecord (main env n r store d0).store r) ∧
    (∀ k d, (k, d) ∈ savesOf (main env n r store d0).trace →
      (k = 3 ∨ k = 6 ∨ k = 9) ∧ d = vecAt r k ∧
      Event.iter k d ∈ (main env n r store d0).trace) := by
  have hinv := fun fuel =>
    mainLoop_stateInv env r hr fuel _ (startup_stateInv env r store d0 hd0 hr hv)
  refine ⟨fun hat => ⟨fun fuel => (hinv fuel).valid hat, ?_⟩, ?_⟩
  · unfold main
    split
    · exact hv
    · simp only [(finish_fields _).1]
      exact (hinv _).valid hat
  · unfold main
    split
    · intro k d h
      exact absurd h (by simp [savesOf])
    · simp only [(finish_fields _).2.1]
      exact (hinv _).saves

/-- Witness of C7: participant 2 on the record of iteration 9, and the saves of
its run from the empty store. -/
theorem records_are_states_witness :
    ValidRecord
      (main allGood 3 2 (save_checkpoint SaveOutcome.good 2 9 (vecAt 2 9) emptyStore)
        zeros).store 2 ∧
    ((6, [38, 39, 40, 41, 42]) ∈ savesOf (main allGood 3 2 emptyStore zeros).trace ∧
      [38, 39, 40, 41, 42] = vecAt 2 6) :=
  ⟨((records_are_states allGood 3 2
      (save_checkpoint SaveOutcome.good 2 9 (vecAt 2 9) emptyStore) zeros rfl
      (by decide) (Or.inr ⟨9, by decide, by decide⟩)).1 allGood_atomic).2,
   by decide,
   ((records_are_states allGood 3 2 emptyStore zeros rfl (by decide) (Or.inl rfl)).2 6
      [38, 39, 40, 41, 42] (by decide)).2.1⟩

/-! ## Participants do not interfere -/

theorem loopBody_store_other (env : Int → SaveOutcome)
    (p : Proc) (f : List Char) (h : f ≠ checkpointFilename p.my_rank) :
    (loopBody env p).store f = p.store f := by
  unfold loopBody loopBodyWith
  simp only []
  split
  · rfl
  · split
    · exact save_checkpoint_other _ _ _ _ _ f h
    · rfl

theorem mainLoop_store_other (env : Int → SaveOutcome) (fuel : Nat) (p : Proc) (f : List Char)
    (h : f ≠ checkpointFilename p.my_rank) : (mainLoop env fuel p).store f = p.store f := by
  induction fuel generalizing p with
  | zero => rfl
  | succ n ih =>
    by_cases hc : p.status = none ∧ p.iteration_count < max_iterations
    · rw [mainLoop_step env _ _ hc, ih _ (by rw [loopBody_my_rank]; exact h),
        loopBody_store_other env p f h]
    · rw [mainLoop_stop env _ _ hc]

/-- A run of a participant leaves every file but its own as it was. -/
theorem main_store_other (env : Int → SaveOutcome)
    (n rank : Int) (store : Store) (d0 : List Int) (f : List Char)
    (h : f ≠ checkpointFilename rank) : (main env n rank store d0).store f = store f := by
  unfold main
  split
  · rfl
  · simp only [(finish_fields _).1]
    rw [mainLoop_store_other env _ _ f (by rw [(startup_fields rank store d0).1]; exact h),
      (startup_fields rank store d0).2.1]

theorem loopBody_same (env : Int → SaveOutcome) (p q : Proc) (h : SameButOthers p q) :
    SameButOthers (loopBody env p) (loopBody env q) := by
  obtain ⟨rank, it, data, store, trace, status⟩ := p
  obtain ⟨rank2, it2, data2, store2, trace2, status2⟩ := q
  obtain ⟨h1, h2, h3, h4, h5, h6⟩ := h
  simp only at h1 h2 h3 h4 h5 h6
  subst h1 h2 h3 h4 h5
  unfold loopBody loopBodyWith
  simp only []
  split
  · exact ⟨rfl, rfl, rfl, rfl, rfl, h6⟩
  · split
    · refine ⟨rfl, rfl, rfl, rfl, rfl, ?_⟩
      exact save_checkpoint_own _ _ _ _ _ _ h6
    · exact ⟨rfl, rfl, rfl, rfl, rfl, h6⟩

theorem mainLoop_same (env : Int → SaveOutcome) (fuel : Nat) (p q : Proc)
    (h : SameButOthers p q) :
    SameButOthers (mainLoop env fuel p) (mainLoop env fuel q) := by
  induction fuel generalizing p q with
  | zero => exact h
  | succ n ih =>
    have hcq : (p.status = none ∧ p.iteration_count < max_iterations)
        ↔ (q.status = none ∧ q.iteration_count < max_iterations) := by
      rw [h.2.2.2.2.1, h.2.1]
    by_cases hc : p.status = none ∧ p.iteration_count < max_iterations
    · rw [mainLoop_step env _ _ hc, mainLoop_step env _ _ (hcq.mp hc)]
      exact ih _ _ (loopBody_same env p q h)
    · rw [mainLoop_stop env _ _ hc, mainLoop_stop env _ _ (fun x => hc (hcq.mpr x))]
      exact h

/-- What a participant does, and the record it leaves, depend on the store only
through its own file. -/
theorem main_same (env : Int → SaveOutcome) (n rank : Int) (s1 s2 : Store) (d0 : List Int)
    (h : s1 (checkpointFilename rank) = s2 (checkpointFilename rank)) :
    SameButOthers (main env n rank s1 d0) (main env n rank s2 d0) := by
  have hl : load_checkpoint s1 rank 0 d0 = load_checkpoint s2 rank 0 d0 := by
    unfold load_checkpoint; rw [h]
  have hs : SameButOthers (startup rank s1 d0) (startup rank s2 d0) := by
    unfold startup
    simp only [hl]
    split
    · exact ⟨rfl, rfl, rfl, rfl, rfl, h⟩
    · exact ⟨rfl, rfl, rfl, rfl, rfl, h⟩
  have hp : passesLeft (startup rank s1 d0) = passesLeft (startup rank s2 d0) := by
    unfold passesLeft; rw [hs.2.1]
  unfold main
  split
  · exact ⟨rfl, rfl, rfl, rfl, rfl, h⟩
  · show SameButOthers
      (finish (mainLoop env (passesLeft (startup rank s1 d0)) (startup rank s1 d0)))
      (finish (mainLoop env (passesLeft (startup rank s2 d0)) (startup rank s2 d0)))
    rw [hp]
    have hm := mainLoop_same env (passesLeft (startup rank s2 d0)) _ _ hs
    obtain ⟨m1, m2, m3, m4, m5, m6⟩ := hm
    unfold finish
    rw [m5]
    split
    · exact ⟨m1, m2, m3, m4, rfl, m6⟩
    · exact ⟨m1, m2, m3, m4, m5, m6⟩

theorem load_checkpoint_congr (s1 s2 : Store) (rank it0 : Int) (d0 : List Int)
    (h : s1 (checkpointFilename rank) = s2 (checkpointFilename rank)) :
    load_checkpoint s1 rank it0 d0 = load_checkpoint s2 rank it0 d0 := by
  unfold load_checkpoint; rw [h]

theorem loopBody_sameButStore (e1 e2 : Int → SaveOutcome) (p q : Proc)
    (h : SameButStore p q) : SameButStore (loopBody e1 p) (loopBody e2 q) := by
  obtain ⟨rank, it, data, store, trace, status⟩ := p
  obtain ⟨rank2, it2, data2, store2, trace2, status2⟩ := q
  obtain ⟨h1, h2, h3, h4, h5⟩ := h
  simp only at h1 h2 h3 h4 h5
  subst h1 h2 h3 h4 h5
  unfold loopBody loopBodyWith
  simp only []
  split
  · exact ⟨rfl, rfl, rfl, rfl, rfl⟩
  · split <;> exact ⟨rfl, rfl, rfl, rfl, rfl⟩

theorem mainLoop_sameButStore (e1 e2 : Int → SaveOutcome) (fuel : Nat) (p q : Proc)
    (h : SameButStore p q) : SameButStore (mainLoop e1 fuel p) (mainLoop e2 fuel q) := by
  induction fuel generalizing p q with
  | zero => exact h
  | succ n ih =>
    have hcq : (p.status = none ∧ p.iteration_count < max_iterations)
        ↔ (q.status = none ∧ q.iteration_count < max_iterations) := by
      rw [h.2.2.2.2, h.2.1]
    by_cases hc : p.status = none ∧ p.iteration_count < max_iterations
    · rw [mainLoop_step e1 _ _ hc, mainLoop_step e2 _ _ (hcq.mp hc)]
      exact ih _ _ (loopBody_sameButStore e1 e2 p q h)
    · rw [mainLoop_stop e1 _ _ hc, mainLoop_stop e2 _ _ (fun x => hc (hcq.mpr x))]
      exact h

/-- What a participant does (its events, its exit status, its variables) depends
neither on the outcome of its saves, nor on the files of others, nor on what
its array held at the start. -/
theorem main_sameButStore (e1 e2 : Int → SaveOutcome) (n rank : Int) (s1 s2 : Store)
    (d1 d2 : List Int) (hd1 : d1.length = DATA_SIZE) (hd2 : d2.length = DATA_SIZE)
    (h3 : 3 ≤ n) (h : s1 (checkpointFilename rank) = s2 (checkpointFilename rank)) :
    SameButStore (main e1 n rank s1 d1) (main e2 n rank s2 d2) := by
  have hs : SameButStore (startup rank s1 d1) (startup rank s2 d2) := by
    rw [startup_indep rank s1 d1 d2 hd1 hd2]
    unfold startup
    simp only [load_checkpoint_congr s1 s2 rank 0 d2 h]
    split <;> exact ⟨rfl, rfl, rfl, rfl, rfl⟩
  have hp : passesLeft (startup rank s1 d1) = passesLeft (startup rank s2 d2) := by
    unfold passesLeft; rw [hs.2.1]
  unfold main
  rw [if_neg (by omega), if_neg (by omega)]
  show SameButStore
    (finish (mainLoop e1 (passesLeft (startup rank s1 d1)) (startup rank s1 d1)))
    (finish (mainLoop e2 (passesLeft (startup rank s2 d2)) (startup rank s2 d2)))
  rw [hp]
  obtain ⟨m1, m2, m3, m4, m5⟩ :=
    mainLoop_sameButStore e1 e2 (passesLeft (startup rank s2 d2)) _ _ hs
  unfold finish
  rw [m5]
  split
  · exact ⟨m1, m2, m3, m4, rfl⟩
  · exact ⟨m1, m2, m3, m4, m5⟩

/-! ## Saves come after the barrier -/

theorem barrierFirst_nil : BarrierFirst [] := by
  intro pre post k d h
  exact absurd h (by simp)

theorem barrierFirst_append (t u : List Event) (ht : BarrierFirst t) (hu : BarrierFirst u)
    (hhead : ∀ k d post, u ≠ Event.save k d :: post) : BarrierFirst (t ++ u) := by
  intro pre post k d h
  rcases List.append_eq_append_iff.mp h with ⟨a, h1, h2⟩ | ⟨c, h1, h2⟩
  · obtain ⟨pre2, hp⟩ := hu a post k d h2
    exact ⟨t ++ pre2, by rw [h1, hp, List.append_assoc]⟩
  · cases c with
    | nil =>
      simp only [List.nil_append] at h2
      exact absurd h2.symm (hhead k d post)
    | cons x c =>
      simp only [List.cons_append, List.cons.injEq] at h2
      obtain ⟨rfl, _⟩ := h2
      exact ht pre c k d h1

theorem barrierFirst_single (e : Event) (he : ∀ k d, e ≠ Event.save k d) :
    BarrierFirst [e] := by
  intro pre post k d h
  cases pre with
  | nil =>
    simp only [List.nil_append, List.cons.injEq] at h
    exact absurd h.1 (he k d)
  | cons a pre =>
    simp only [List.cons_append, List.cons.injEq] at h
    exact absurd h.2.symm (by simp)

theorem barrierFirst_barrier_save (k : Int) (d : List Int) :
    BarrierFirst [Event.barrier k, Event.save k d] := by
  intro pre post j e h
  match pre, h with
  | [], h => simp at h
  | [a], h =>
    simp only [List.cons_append, List.nil_append, List.cons.injEq, Event.save.injEq] at h
    obtain ⟨rfl, ⟨rfl, _⟩, _⟩ := h
    exact ⟨[], rfl⟩
  | a :: b :: rest, h =>
    simp only [List.cons_append, List.cons.injEq] at h
    exact absurd h.2.2.symm (by simp)

theorem startup_barrierFirst (rank : Int) (store : Store) (d0 : List Int) :
    BarrierFirst (startup rank store d0).trace := by
  unfold startup
  simp only []
  split <;> exact barrierFirst_single _ (fun _ _ h => by cases h)

theorem loopBody_barrierFirst (env : Int → SaveOutcome) (p : Proc)
    (h : BarrierFirst p.trace) : BarrierFirst (loopBody env p).trace := by
  have hi : ∀ k d, BarrierFirst (p.trace ++ [Event.iter k d]) := fun k d =>
    barrierFirst_append _ _ h (barrierFirst_single _ (fun _ _ h => by cases h))
      (fun _ _ _ h => by cases h)
  unfold loopBody loopBodyWith
  simp only []
  split
  · exact barrierFirst_append _ _ (hi _ _) (barrierFirst_single _ (fun _ _ h => by cases h))
      (fun _ _ _ h => by cases h)
  · split
    · exact barrierFirst_append _ _ (hi _ _) (barrierFirst_barrier_save _ _)
        (fun _ _ _ h => by cases h)
    · exact hi _ _

theorem mainLoop_barrierFirst (env : Int → SaveOutcome) (fuel : Nat) (p : Proc)
    (h : BarrierFirst p.trace) : BarrierFirst (mainLoop env fuel p).trace := by
  induction fuel generalizing p with
  | zero => exact h
  | succ n ih =>
    by_cases hc : p.status = none ∧ p.iteration_count < max_iterations
    · rw [mainLoop_step env _ _ hc]
      exact ih _ (loopBody_barrierFirst env p h)
    · rw [mainLoop_stop env _ _ hc]; exact h

/-- C6: in every run of a participant, whatever its rank, the size of the
group, the store, the outcome of its saves and the content of its array at the
start, each call of `save_checkpoint` for a boundary comes right after the
participant's own call of `MPI_Barrier` for that same boundary has returned:
the event before a `save` of iteration `k` in the trace is the `barrier` of
iteration `k`. -/
theorem save_follows_barrier (env : Int → SaveOutcome) (n rank : Int) (store : Store)
    (d0 : List Int) (pre post : List Event) (k : Int) (d : List Int)
    (h : (main env n rank store d0).trace = pre ++ Event.save k d :: post) :
    ∃ pre2, pre = pre2 ++ [Event.barrier k] := by
  have hb : BarrierFirst (main env n rank store d0).trace := by
    unfold main
    split
    · exact barrierFirst_nil
    · simp only [(finish_fields _).2.1]
      exact mainLoop_barrierFirst env _ _ (startup_barrierFirst rank store d0)
  exact hb pre post k d h

/-- Witness of C6: the save of participant 1 at iteration 3 in the first run. -/
theorem save_follows_barrier_witness :
    (main allGood 3 1 emptyStore zeros).trace
      = [Event.start false 0 [10, 11, 12, 13, 14], Event.iter 1 [12, 13, 14, 15, 16],
          Event.iter 2 [14, 15, 16, 17, 18], Event.iter 3 [16, 17, 18, 19, 20],
          Event.barrier 3]
        ++ Event.save 3 [16, 17, 18, 19, 20]
          :: [Event.iter 4 [18, 19, 20, 21, 22], Event.iter 5 [20, 21, 22, 23, 24],
              Event.fault] ∧
    ∃ pre2, [Event.start false 0 [10, 11, 12, 13, 14], Event.iter 1 [12, 13, 14, 15, 16],
        Event.iter 2 [14, 15, 16, 17, 18], Event.iter 3 [16, 17, 18, 19, 20], Event.barrier 3]
      = pre2 ++ [Event.barrier 3] :=
  ⟨by decide, save_follows_barrier allGood 3 1 emptyStore zeros
    [Event.start false 0 [10, 11, 12, 13, 14], Event.iter 1 [12, 13, 14, 15, 16],
      Event.iter 2 [14, 15, 16, 17, 18], Event.iter 3 [16, 17, 18, 19, 20], Event.barrier 3]
    [Event.iter 4 [18, 19, 20, 21, 22], Event.iter 5 [20, 21, 22, 23, 24], Event.fault]
    3 [16, 17, 18, 19, 20] (by decide)⟩

/-! ## The reference scenario -/

theorem runGroup_fst (e0 e1 e2 : Int → SaveOutcome) (store : Store) (d0 d1 d2 : List Int) :
    (runGroup e0 e1 e2 store d0 d1 d2).1 = main e0 3 0 store d0 := rfl

theorem runGroup_snd (e0 e1 e2 : Int → SaveOutcome) (store : Store) (d0 d1 d2 : List Int) :
    (runGroup e0 e1 e2 store d0 d1 d2).2.1 = main e1 3 1 (main e0 3 0 store d0).store d1 := rfl

theorem runGroup_trd (e0 e1 e2 : Int → SaveOutcome) (store : Store) (d0 d1 d2 : List Int) :
    (runGroup e0 e1 e2 store d0 d1 d2).2.2
      = main e2 3 2 (main e1 3 1 (main e0 3 0 store d0).store d1).store d2 := rfl

/-- In a run of the group from the empty store, each participant does what it
does alone on the empty store when every save succeeds. -/
theorem runGroup_alone (e0 e1 e2 : Int → SaveOutcome) (d0 d1 d2 : List Int)
    (h0 : d0.length = DATA_SIZE) (h1 : d1.length = DATA_SIZE) (h2 : d2.length = DATA_SIZE) :
    SameButStore (runGroup e0 e1 e2 emptyStore d0 d1 d2).1 (main allGood 3 0 emptyStore zeros) ∧
    SameButStore (runGroup e0 e1 e2 emptyStore d0 d1 d2).2.1
      (main allGood 3 1 emptyStore zeros) ∧
    SameButStore (runGroup e0 e1 e2 emptyStore d0 d1 d2).2.2
      (main allGood 3 2 emptyStore zeros) := by
  have n10 : checkpointFilename 1 ≠ checkpointFilename 0 := by decide
  have n20 : checkpointFilename 2 ≠ checkpointFilename 0 := by decide
  have n21 : checkpointFilename 2 ≠ checkpointFilename 1 := by decide
  have z : zeros.length = DATA_SIZE := rfl
  have three : (3 : Int) ≤ 3 := le_refl _
  rw [runGroup_fst, runGroup_snd, runGroup_trd]
  refine ⟨?_, ?_, ?_⟩
  · exact main_sameButStore e0 allGood 3 0 emptyStore emptyStore d0 zeros h0 z three rfl
  · exact main_sameButStore e1 allGood 3 1 (main e0 3 0 emptyStore d0).store emptyStore d1 zeros
      h1 z three (main_store_other e0 3 0 emptyStore d0 _ n10)
  · refine main_sameButStore e2 allGood 3 2
      (main e1 3 1 (main e0 3 0 emptyStore d0).store d1).store emptyStore d2 zeros h2 z three ?_
    rw [main_store_other e1 3 1 _ d1 _ n21, main_store_other e0 3 0 emptyStore d0 _ n20]

/-- C4: in the reference configuration, a first run from the empty store (every
barrier call returning) saves for participants 0 and 2 at iterations 3, 6 and 9
and at no other, and for participant 1 at iteration 3 only; participant 1 ends
with failure status in iteration 5, participants 0 and 2 end normally; this
holds whatever the arrays held at the start and however the library calls of
the saves go. The records left hold iteration 9 for participants 0 and 2 and 3
for participant 1, each when the last save of the participant wrote its
record. -/
theorem first_run (e0 e1 e2 : Int → SaveOutcome) (d0 d1 d2 : List Int)
    (h0 : d0.length = DATA_SIZE) (h1 : d1.length = DATA_SIZE) (h2 : d2.length = DATA_SIZE) :
    savesOf (runGroup e0 e1 e2 emptyStore d0 d1 d2).1.trace
      = [(3, [3, 4, 5, 6, 7]), (6, [6, 7, 8, 9, 10]), (9, [9, 10, 11, 12, 13])] ∧
    (runGroup e0 e1 e2 emptyStore d0 d1 d2).1.status = some 0 ∧
    (runGroup e0 e1 e2 emptyStore d0 d1 d2).2.1.trace
      = [Event.start false 0 [10, 11, 12, 13, 14],
         Event.iter 1 [12, 13, 14, 15, 16], Event.iter 2 [14, 15, 16, 17, 18],
         Event.iter 3 [16, 17, 18, 19, 20], Event.barrier 3, Event.save 3 [16, 17, 18, 19, 20],
         Event.iter 4 [18, 19, 20, 21, 22], Event.iter 5 [20, 21, 22, 23, 24], Event.fault] ∧
    (runGroup e0 e1 e2 emptyStore d0 d1 d2).2.1.status = some EXIT_FAILURE ∧
    savesOf (runGroup e0 e1 e2 emptyStore d0 d1 d2).2.2.trace
      = [(3, [29, 30, 31, 32, 33]), (6, [38, 39, 40, 41, 42]), (9, [47, 48, 49, 50, 51])] ∧
    (runGroup e0 e1 e2 emptyStore d0 d1 d2).2.2.status = some 0 ∧
    (Written (e0 9) →
      load_checkpoint (storeAfter e0 e1 e2 emptyStore d0 d1 d2) 0 0 zeros
        = (1, 9, [9, 10, 11, 12, 13])) ∧
    (Written (e1 3) →
      load_checkpoint (storeAfter e0 e1 e2 emptyStore d0 d1 d2) 1 0 zeros
        = (1, 3, [16, 17, 18, 19, 20])) ∧
    (Written (e2 9) →
      load_checkpoint (storeAfter e0 e1 e2 emptyStore d0 d1 d2) 2 0 zeros
        = (1, 9, [47, 48, 49, 50, 51])) := by
  obtain ⟨⟨_, _, _, t0, s0⟩, ⟨_, _, _, t1, s1⟩, ⟨_, _, _, t2, s2⟩⟩ :=
    runGroup_alone e0 e1 e2 d0 d1 d2 h0 h1 h2
  have n01 : checkpointFilename 0 ≠ checkpointFilename 1 := by decide
  have n02 : checkpointFilename 0 ≠ checkpointFilename 2 := by decide
  have n12 : checkpointFilename 1 ≠ checkpointFilename 2 := by decide
  have three : (3 : Int) ≤ 3 := le_refl _
  have z : zeros.length = DATA_SIZE := rfl
  have l0 : (savesOf (runGroup e0 e1 e2 emptyStore d0 d1 d2).1.trace).getLast?
      = some (9, [9, 10, 11, 12, 13]) := by rw [t0]; decide
  have l1 : (savesOf (runGroup e0 e1 e2 emptyStore d0 d1 d2).2.1.trace).getLast?
      = some (3, [16, 17, 18, 19, 20]) := by rw [t1]; decide
  have l2 : (savesOf (runGroup e0 e1 e2 emptyStore d0 d1 d2).2.2.trace).getLast?
      = some (9, [47, 48, 49, 50, 51]) := by rw [t2]; decide
  rw [runGroup_fst] at l0
  rw [runGroup_snd] at l1
  rw [runGroup_trd] at l2
  refine ⟨?_, ?_, ?_, ?_, ?_, ?_, ?_, ?_, ?_⟩
  · rw [t0]; decide
  · rw [s0]; decide
  · rw [t1]; decide
  · rw [s1]; decide
  · rw [t2]; decide
  · rw [s2]; decide
  · intro hw
    have hl := (main_last_save e0 3 0 emptyStore d0 h0 three 9 [9, 10, 11, 12, 13] l0 hw 0
      zeros z).1
    rw [← hl]
    apply load_checkpoint_congr
    unfold storeAfter
    rw [runGroup_trd, main_store_other e2 3 2 _ d2 _ n02, main_store_other e1 3 1 _ d1 _ n01]
  · intro hw
    have hl := (main_last_save e1 3 1 (main e0 3 0 emptyStore d0).store d1 h1 three 3
      [16, 17, 18, 19, 20] l1 hw 0 zeros z).1
    rw [← hl]
    apply load_checkpoint_congr
    unfold storeAfter
    rw [runGroup_trd, main_store_other e2 3 2 _ d2 _ n12]
  · intro hw
    unfold storeAfter
    rw [runGroup_trd]
    exact (main_last_save e2 3 2 (main e1 3 1 (main e0 3 0 emptyStore d0).store d1).store d2 h2
      three 9 [47, 48, 49, 50, 51] l2 hw 0 zeros z).1

/-- Witness of C4: every save succeeds and the three arrays hold arbitrary
values at the start. -/
theorem first_run_witness :
    savesOf (runGroup allGood allGood allGood emptyStore [1, 2, 3, 4, 5] [-1, -1, -1, -1, -1]
        zeros).1.trace
      = [(3, [3, 4, 5, 6, 7]), (6, [6, 7, 8, 9, 10]), (9, [9, 10, 11, 12, 13])] ∧
    (runGroup allGood allGood allGood emptyStore [1, 2, 3, 4, 5] [-1, -1, -1, -1, -1]
        zeros).2.1.status = some EXIT_FAILURE ∧
    load_checkpoint (storeAfter allGood allGood allGood emptyStore [1, 2, 3, 4, 5]
        [-1, -1, -1, -1, -1] zeros) 0 0 zeros = (1, 9, [9, 10, 11, 12, 13]) ∧
    load_checkpoint (storeAfter allGood allGood allGood emptyStore [1, 2, 3, 4, 5]
        [-1, -1, -1, -1, -1] zeros) 1 0 zeros = (1, 3, [16, 17, 18, 19, 20]) ∧
    load_checkpoint (storeAfter allGood allGood allGood emptyStore [1, 2, 3, 4, 5]
        [-1, -1, -1, -1, -1] zeros) 2 0 zeros = (1, 9, [47, 48, 49, 50, 51]) :=
  have h := first_run allGood allGood allGood [1, 2, 3, 4, 5] [-1, -1, -1, -1, -1] zeros
    rfl rfl rfl
  ⟨h.1, h.2.2.2.1, h.2.2.2.2.2.2.1 good_written, h.2.2.2.2.2.2.2.1 good_written,
    h.2.2.2.2.2.2.2.2 good_written⟩

/-- C2, the behaviour of the code: a second run started from the store the
first run left, every save of the first run having succeeded, recovers
participant 1 from iteration 3 and participants 0 and 2 from iteration 9;
participants 0 and 2 compute iteration 10 and end normally, but participant 1
computes iterations 4 and 5 and ends with failure status again: the fault at
iteration 5 is triggered again. -/
theorem second_run_faults_again :
    (runGroup allGood allGood allGood
        (storeAfter allGood allGood allGood emptyStore zeros zeros zeros)
        zeros zeros zeros).1.trace
      = [Event.start true 9 [9, 10, 11, 12, 13], Event.iter 10 [10, 11, 12, 13, 14]] ∧
    (runGroup allGood allGood allGood
        (storeAfter allGood allGood allGood emptyStore zeros zeros zeros)
        zeros zeros zeros).1.status = some 0 ∧
    (runGroup allGood allGood allGood
        (storeAfter allGood allGood allGood emptyStore zeros zeros zeros)
        zeros zeros zeros).2.1.trace
      = [Event.start true 3 [16, 17, 18, 19, 20], Event.iter 4 [18, 19, 20, 21, 22],
         Event.iter 5 [20, 21, 22, 23, 24], Event.fault] ∧
    (runGroup allGood allGood allGood
        (storeAfter allGood allGood allGood emptyStore zeros zeros zeros)
        zeros zeros zeros).2.1.status = some EXIT_FAILURE ∧
    (runGroup allGood allGood allGood
        (storeAfter allGood allGood allGood emptyStore zeros zeros zeros)
        zeros zeros zeros).2.1.iteration_count = 4 ∧
    (runGroup allGood allGood allGood
        (storeAfter allGood allGood allGood emptyStore zeros zeros zeros)
        zeros zeros zeros).2.2.trace
      = [Event.start true 9 [47, 48, 49, 50, 51], Event.iter 10 [50, 51, 52, 53, 54]] ∧
    (runGroup allGood allGood allGood
        (storeAfter allGood allGood allGood emptyStore zeros zeros zeros)
        zeros zeros zeros).2.2.status = some 0 := by
  decide

end MpiCheckpoint

